import Mathlib

/-!
Verification development for the spojit temporal sampling engine.

The Lean definitions below are a shallow embedding of the Python sources
(`spojit/util.py`, `spojit/user_model.py`, `spojit/event.py`,
`spojit/artifact_filter.py`, `spojit/io.py`, `spojit/profile.py`):

* Python dictionaries keyed by strings are modeled as association lists
  (`List (String × α)`) with Python's insertion-order semantics.
* Python sets are modeled by lists used only through membership, except where
  the code observes a set's iteration order (`list(valid_ids)` in
  `_filter_data_source`), which is environment-dependent under CPython hash
  randomization; there the enumeration is an explicit parameter.
* Machine floats carried by similarity oracles and the resource-overlap ratio
  are modeled as exact rationals; only orderings and identities independent of
  rounding are proved about them.
* Fallible code (`raise ValueError`, `KeyError`, ...) returns `Except String`.
* `datetime.strptime(arg, "%Y-%m-%dT%H:%M:%SZ")` followed by
  `datetime.timestamp()` interprets the parsed naive datetime in the local
  timezone of the environment; the embedding takes the environment's UTC
  offset (in seconds) as an explicit parameter `tz`.
-/

namespace Spojit

/-- Decidable equality of `Except` results, used to evaluate concrete runs of
the embedded fallible functions. -/
instance {ε α : Type} [DecidableEq ε] [DecidableEq α] : DecidableEq (Except ε α) := fun x y =>
  match x, y with
  | .ok a, .ok b =>
    if h : a = b then .isTrue (by rw [h]) else .isFalse (by simp [h])
  | .error a, .error b =>
    if h : a = b then .isTrue (by rw [h]) else .isFalse (by simp [h])
  | .ok _, .error _ => .isFalse (by simp)
  | .error _, .ok _ => .isFalse (by simp)

/-! ## util.py -/

/-- Calendar date-time as produced by `datetime.strptime` for the fixed format
`%Y-%m-%dT%H:%M:%SZ`. -/
structure DateTime where
  year : Nat
  month : Nat
  day : Nat
  hour : Nat
  minute : Nat
  second : Nat
deriving Repr, DecidableEq

/-- Read a maximal run of ASCII digits, returning (value, number of digits,
remaining characters). Mirrors the `\d...` groups of CPython `_strptime`. -/
def readDigits : List Char → Nat → Nat → (Nat × Nat × List Char)
  | c :: cs, acc, n =>
    if c.isDigit then readDigits cs (acc * 10 + (c.toNat - 48)) (n + 1)
    else (acc, n, c :: cs)
  | [], acc, n => (acc, n, [])

/-- Match one literal character, case-insensitively (CPython `_strptime`
compiles the format regex with `re.IGNORECASE`). -/
def matchLit (c : Char) : List Char → Option (List Char)
  | d :: cs => if d.toLower = c.toLower then some cs else none
  | [] => none

/-- Field acceptance for the numeric directives of `%Y-%m-%dT%H:%M:%SZ` in
CPython `_strptime`: `%Y` is exactly four digits; the other directives are one
or two digits, with the two-digit range given by their regex alternations
(month 01..12, day 01..31, hour 00..23, minute 00..59, second 00..61). -/
def fieldOk (len4 : Bool) (lo hi v n : Nat) : Bool :=
  if len4 then n = 4 else (n = 1 ∨ n = 2) ∧ lo ≤ v ∧ v ≤ hi

/-- Pattern match of `%Y-%m-%dT%H:%M:%SZ` against an input string, as the
regex CPython `_strptime` builds for this format. Returns the six numeric
fields on success. -/
def strptimeMatch (s : String) : Option DateTime :=
  let (y, ny, r1) := readDigits s.toList 0 0
  if fieldOk true 0 0 y ny then
    match matchLit '-' r1 with
    | none => none
    | some r2 =>
      let (mo, nmo, r3) := readDigits r2 0 0
      if fieldOk false 1 12 mo nmo then
        match matchLit '-' r3 with
        | none => none
        | some r4 =>
          let (d, nd, r5) := readDigits r4 0 0
          if fieldOk false 1 31 d nd then
            match matchLit 'T' r5 with
            | none => none
            | some r6 =>
              let (h, nh, r7) := readDigits r6 0 0
              if fieldOk false 0 23 h nh then
                match matchLit ':' r7 with
                | none => none
                | some r8 =>
                  let (mi, nmi, r9) := readDigits r8 0 0
                  if fieldOk false 0 59 mi nmi then
                    match matchLit ':' r9 with
                    | none => none
                    | some r10 =>
                      let (sec, ns, r11) := readDigits r10 0 0
                      if fieldOk false 0 61 sec ns then
                        match matchLit 'Z' r11 with
                        | none => none
                        | some r12 =>
                          if r12 = [] then some ⟨y, mo, d, h, mi, sec⟩ else none
                      else none
                  else none
              else none
          else none
      else none
  else none

/-- Days in a month, with the Gregorian leap-year rule, as validated by the
`datetime.datetime` constructor. -/
def daysInMonth (year month : Nat) : Nat :=
  let leap : Bool := year % 4 = 0 ∧ (year % 100 ≠ 0 ∨ year % 400 = 0)
  if month = 2 then (if leap then 29 else 28)
  else if month ∈ [4, 6, 9, 11] then 30
  else 31

/-- Validation performed by the `datetime.datetime` constructor on the fields
delivered by the format match: year within `MINYEAR..MAXYEAR`, day within the
month, second at most 59. -/
def datetimeConstructorOk (dt : DateTime) : Bool :=
  1 ≤ dt.year ∧ dt.year ≤ 9999 ∧ 1 ≤ dt.day ∧ dt.day ≤ daysInMonth dt.year dt.month ∧ dt.second ≤ 59

/-- Embedding of `datetime.datetime.strptime(arg, "%Y-%m-%dT%H:%M:%SZ")`:
regex match of the format followed by the `datetime` constructor checks. -/
def strptimeIsoZ (s : String) : Option DateTime :=
  match strptimeMatch s with
  | some dt => if datetimeConstructorOk dt then some dt else none
  | none => none

/-- Days from the Unix epoch 1970-01-01 to the given civil date (the standard
days-from-civil computation); defined for validated dates (year at least 1). -/
def daysFromCivil (year month day : Nat) : Int :=
  let y : Nat := if month ≤ 2 then year - 1 else year
  let era : Nat := y / 400
  let yoe : Nat := y % 400
  let mp : Nat := if 2 < month then month - 3 else month + 9
  let doy : Nat := (153 * mp + 2) / 5 + (day - 1)
  let doe : Nat := yoe * 365 + yoe / 4 - yoe / 100 + doy
  (era * 146097 + doe : Int) - 719468

/-- Seconds from the Unix epoch to the given date-time read as UTC. -/
def utcEpochSeconds (dt : DateTime) : Int :=
  daysFromCivil dt.year dt.month dt.day * 86400
    + (dt.hour * 3600 + dt.minute * 60 + dt.second : Nat)

/-- Embedding of `spojit.util.date_time_to_timestamp`. A naive
`datetime.timestamp()` interprets the fields in the environment's local
timezone; `tz` is that environment's UTC offset in seconds (the repository's
doctest and `test_util.py` value presuppose `tz = 7200`, i.e. UTC+2). -/
def date_time_to_timestamp (tz : Int) (arg : String) : Except String Int :=
  if arg = "" then .error "invalid input"
  else
    match strptimeIsoZ arg with
    | none => .error ("time data does not match format: " ++ arg)
    | some dt => .ok (utcEpochSeconds dt - tz)

/-- Embedding of `spojit.util.resource_similarity`: both argument collections
are reduced to sets, and the intersection size is divided by the size of the
larger set (0 when the larger set is empty). Python's float division is
modeled exactly in `ℚ`. -/
def resource_similarity (first second : List String) : ℚ :=
  let l1 := first.toFinset
  let l2 := second.toFinset
  let l3 := l1 ∩ l2
  if l2.card < l1.card then
    (if 0 < l1.card then (l3.card : ℚ) / l1.card else 0)
  else
    (if 0 < l2.card then (l3.card : ℚ) / l2.card else 0)

/-! ## Python dictionaries and sets

Python dictionaries preserve insertion order; they are modeled as association
lists where `dinsert` replaces the value of an existing key in place and
appends a new key at the end, exactly as CPython does. Python sets are modeled
as lists with set-style insertion (`setAdd`); the pipeline observes sets only
through membership except at the one place noted in `_filter_data_source`. -/

/-- Lookup in a Python dictionary (`d.get(k, None)` / `d[k]`). -/
def dlookup {α : Type} : List (String × α) → String → Option α
  | [], _ => none
  | (k', v') :: rest, k => if k' = k then some v' else dlookup rest k

/-- Assignment `d[k] = v` in a Python dictionary: replace in place when the
key exists, append otherwise. -/
def dinsert {α : Type} : List (String × α) → String → α → List (String × α)
  | [], k, v => [(k, v)]
  | (k', v') :: rest, k, v =>
    if k' = k then (k', v) :: rest else (k', v') :: dinsert rest k v

/-- Python `set.add` (membership-preserving insert). -/
def setAdd (l : List String) (x : String) : List String :=
  if x ∈ l then l else l ++ [x]

/-! ## String comparisons

Python compares strings lexicographically by code point. The embedding uses
structural recursion over the character lists (extensionally the order of
`String`'s own instances, written out so that concrete comparisons reduce in
the kernel). -/

/-- Strict lexicographic comparison of character lists. -/
def pyStrLtL : List Char → List Char → Bool
  | [], [] => false
  | [], _ :: _ => true
  | _ :: _, [] => false
  | a :: as, b :: bs => if a < b then true else if b < a then false else pyStrLtL as bs

/-- Python `a < b` on strings. -/
def pyStrLt (a b : String) : Bool := pyStrLtL a.toList b.toList

/-- Python `a <= b` on strings (total order: the complement of `b < a`). -/
def pyStrLe (a b : String) : Bool := !pyStrLt b a

/-- Python `fn.endswith(ext)`. -/
def pyEndsWith (fn ext : String) : Bool :=
  ext.toList.reverse.isPrefixOf fn.toList.reverse

/-! ## user_model.py -/

/-- Embedding of `spojit.user_model.Developer`. The Python `names` and
`user_names` sets are modeled as duplicate-free lists; the pipeline observes
them only through membership. A Python `None` name is folded into `""` (both
are falsy in every check the code performs on them). -/
structure Developer where
  number : Nat
  names : List String
  user_names : List String
deriving Repr, DecidableEq

/-- Apply `f` to the first list member satisfying `p` (the
`matches[0]` update idiom of `DeveloperTeam.add_or_update_developer`). -/
def updateFirst {α : Type} (p : α → Bool) (f : α → α) : List α → Option (List α)
  | [] => none
  | d :: ds => if p d then some (f d :: ds) else (updateFirst p f ds).map (d :: ·)

/-- Embedding of `DeveloperTeam.add_or_update_developer`: match by handle
first, then by display name; on a miss create a new member numbered by the
current roster length. Returns the updated member list. -/
def add_or_update_developer (members : List Developer) (name user_name : String) :
    List Developer :=
  if name = "" ∧ user_name = "" then members
  else
    match updateFirst (fun x => x.user_names.contains user_name)
        (fun x => { x with names := setAdd x.names name }) members with
    | some ms => ms
    | none =>
      match updateFirst (fun x => x.names.contains name)
          (fun x => { x with user_names := setAdd x.user_names user_name }) members with
      | some ms => ms
      | none => members ++ [{ number := members.length, names := [name], user_names := [user_name] }]

/-- Embedding of `spojit.user_model.LinkedDeveloper`. -/
structure LinkedDeveloper where
  jira_idx : Option Nat
  git_idx : Option Nat
deriving Repr, DecidableEq

/-- Embedding of `spojit.user_model.ProjectUsers` (the two `DeveloperTeam`
member lists plus the cross-team links). -/
structure ProjectUsers where
  jira_team : List Developer
  git_team : List Developer
  team_links : List LinkedDeveloper
deriving Repr, DecidableEq

/-- Inner scan of `ProjectUsers.link_teams`: find the first remaining git
member id whose `names` intersect the given jira developer's `names`;
return the position value from the remaining list together with the member's
`number` (the code erases the former and links the latter). -/
def find_matching_git (jira_dev : Developer) (git_team : List Developer) :
    List Nat → Option (Nat × Nat)
  | [] => none
  | idx :: rest =>
    match git_team.get? idx with
    | some git_dev =>
      if jira_dev.names.any (fun n => git_dev.names.contains n) then
        some (idx, git_dev.number)
      else find_matching_git jira_dev git_team rest
    | none => find_matching_git jira_dev git_team rest

/-- Outer loop of `ProjectUsers.link_teams`: one link per jira developer (with
the matching git member removed from the remaining pool), then one one-sided
link per still-unmatched git member. -/
def link_teams_go (git_team : List Developer) :
    List Developer → List Nat → List LinkedDeveloper
  | [], remaining => remaining.map (fun idx => ⟨none, some idx⟩)
  | jd :: jds, remaining =>
    match find_matching_git jd git_team remaining with
    | some (idx, number) =>
      ⟨some jd.number, some number⟩ :: link_teams_go git_team jds (remaining.erase idx)
    | none => ⟨some jd.number, none⟩ :: link_teams_go git_team jds remaining

/-- Embedding of `ProjectUsers.link_teams`. -/
def link_teams (jira_team git_team : List Developer) : ProjectUsers :=
  { jira_team := jira_team
    git_team := git_team
    team_links := link_teams_go git_team jira_team (git_team.map (·.number)) }

/-- Embedding of `ProjectUsers.run`: fold the raw pairs into the two rosters,
then cross-link them. -/
def project_users_run (jira_users git_users : List (String × String)) : ProjectUsers :=
  let jira := jira_users.foldl (fun ms (p : String × String) => add_or_update_developer ms p.1 p.2) []
  let git := git_users.foldl (fun ms (p : String × String) => add_or_update_developer ms p.1 p.2) []
  link_teams jira git

/-- Loop of `ProjectUsers.get_link_id` over `enumerate(self.team_links)`.
Python raises `ValueError` for a team name other than `'jira'`/`'git'` inside
the loop body, and `IndexError` on an out-of-range member index; both are
modeled as `Except.error`. -/
def get_link_id_go (pu : ProjectUsers) (user_name team_name : String) :
    List LinkedDeveloper → Nat → Except String (Option Nat)
  | [], _ => .ok none
  | ld :: rest, idx =>
    if team_name = "jira" then
      match ld.jira_idx with
      | some j =>
        match pu.jira_team.get? j with
        | some dev =>
          if user_name ∈ dev.user_names then .ok (some idx)
          else get_link_id_go pu user_name team_name rest (idx + 1)
        | none => .error "list index out of range"
      | none => get_link_id_go pu user_name team_name rest (idx + 1)
    else if team_name = "git" then
      match ld.git_idx with
      | some gi =>
        match pu.git_team.get? gi with
        | some dev =>
          if user_name ∈ dev.user_names then .ok (some idx)
          else get_link_id_go pu user_name team_name rest (idx + 1)
        | none => .error "list index out of range"
      | none => get_link_id_go pu user_name team_name rest (idx + 1)
    else .error ("unknown team name " ++ team_name)

/-- Embedding of `ProjectUsers.get_link_id`. -/
def get_link_id (pu : ProjectUsers) (user_name team_name : String) :
    Except String (Option Nat) :=
  get_link_id_go pu user_name team_name pu.team_links 0

/-! ## Data model (issue / commit dictionaries) -/

/-- An issue dictionary as imported by `spojit.io.JsonImport.import_issues`
(the `import_fields` keys), with the `mapped_type` key attached by
`_filter_data_source`. The `type` key is called `itype` (`type` is reserved
in Lean); `assignee = ""` models a falsy (`None` or empty) assignee. -/
structure Issue where
  id : String
  created_date : String
  resolved_date : Option String
  itype : String
  status : String
  resolution : Option String
  assignee : String
  assignee_username : String
  mapped_type : Option String := none
deriving Repr, DecidableEq

/-- A change-set dictionary as imported by `import_change_sets`, with the
`__to_predict__` marker key of `_mark_as_to_predict` modeled as a boolean
field defaulting to `False` (`d.get(_TO_PREDICT_KEY, False)`). -/
structure Commit where
  commit_hash : String
  author : String
  author_email : String
  committed_date : String
  file_path : List String
  to_predict : Bool := false
deriving Repr, DecidableEq

/-- Embedding of the `DataSource` named tuple of `spojit.profile`. -/
structure DataSource where
  issues : List Issue
  issue_to_change_set : List (String × List String)
  change_sets : List Commit
deriving Repr, DecidableEq

/-- An issue enriched with the `user_id` key attached by
`ProfileGenerator.build_issue_lookup`. -/
structure EIssue extends Issue where
  user_id : Nat
deriving Repr, DecidableEq

/-- A commit enriched with the `user_id` key attached by
`ProfileGenerator.build_change_set_lookup`. -/
structure ECommit extends Commit where
  user_id : Nat
deriving Repr, DecidableEq

/-! ## artifact_filter.py (DefaultFilter) -/

/-- Mapping from JIRA issue type to the closed category set
(`DefaultFilter.ISSUE_TYPE_MAPPING`). -/
def ISSUE_TYPE_MAPPING : List (String × String) :=
  [("Bug", "bug"), ("Feature Request", "feature"), ("New Feature", "feature"),
   ("Enhancement", "improvement"), ("Improvement", "improvement"),
   ("Sub-task", "task"), ("Task", "task")]

/-- Embedding of `DefaultFilter.issue_type_to_category`. -/
def issue_type_to_category (i : Issue) : Option String :=
  dlookup ISSUE_TYPE_MAPPING i.itype

/-- File extensions recognized as source files
(`DefaultFilter.SOURCE_FILE_EXTENSIONS`). -/
def SOURCE_FILE_EXTENSIONS : List String :=
  [".java", ".as", ".h", ".hpp", ".hh", ".c", ".cpp", ".cc", ".groovy", ".scala"]

/-- Embedding of `DefaultFilter.has_source_file_extension`
(`fn.endswith(ext)` for any recognized extension). -/
def has_source_file_extension (fn : String) : Bool :=
  SOURCE_FILE_EXTENSIONS.any (fun ext => pyEndsWith fn ext)

/-- Embedding of `DefaultFilter.is_source_file` (extension check only; the
test/example exclusions are commented out in the source). -/
def is_source_file (file_path : String) : Bool :=
  has_source_file_extension file_path

/-- Embedding of `DefaultFilter.is_relevant_commit`: the commit touches at
least one recognized source file. -/
def is_relevant_commit (c : Commit) : Bool :=
  0 < (c.file_path.filter is_source_file).length

/-- Embedding of `DefaultFilter.is_relevant_issue`: accepted type, and
resolution/status in the accepted lists (`resolution` may be `None`). -/
def is_relevant_issue (i : Issue) : Bool :=
  (issue_type_to_category i).isSome
    && (i.resolution == none || i.resolution == some "Done" || i.resolution == some "Fixed")
    && (i.status == "Open" || i.status == "Reopened" || i.status == "Resolved"
        || i.status == "Closed")

/-! ## io.py (build_project_users) -/

/-- One step of the `defaultdict(set)` accumulation
`d[key].update([value])`. -/
def dUpdateSetAdd (d : List (String × List String)) (k x : String) :
    List (String × List String) :=
  match dlookup d k with
  | some s => dinsert d k (setAdd s x)
  | none => d ++ [(k, [x])]

/-- Embedding of `io._flatten`: `[(key, v) for key, values in d.items() for v
in values]`. The per-key value collections are Python sets whose iteration
order is environment-dependent; the rosters built from them are
order-independent at every observed interface (membership and grouping by
key), so the insertion order is used as the canonical enumeration. -/
def _flatten (d : List (String × List String)) : List (String × String) :=
  d.foldr (fun (kv : String × List String) acc => kv.2.map (fun v => (kv.1, v)) ++ acc) []

/-- Sorting relation of `sorted(..., key=operator.itemgetter(0))`. -/
def fst_le (a b : String × String) : Prop := pyStrLe a.1 b.1 = true

instance : DecidableRel fst_le := fun a b =>
  inferInstanceAs (Decidable (pyStrLe a.1 b.1 = true))

/-- Embedding of `io.build_project_users`: group jira handles by assignee
display name and git emails by author name, flatten, sort stably by display
name (CPython `sorted` is stable; `List.insertionSort` with a total preorder
is extensionally the same stable sort), and fold into linked rosters. -/
def build_project_users (project_data : DataSource) : ProjectUsers :=
  let jira_raw := project_data.issues.foldl
    (fun d i => if i.assignee ≠ "" then dUpdateSetAdd d i.assignee i.assignee_username else d) []
  let git_raw := project_data.change_sets.foldl
    (fun d c => dUpdateSetAdd d c.author c.author_email) []
  let jira_users := List.insertionSort fst_le (_flatten jira_raw)
  let git_users := List.insertionSort fst_le (_flatten git_raw)
  project_users_run jira_users git_users

/-! ## event.py -/

/-- Embedding of the `JiraEvent` named tuple. -/
structure JiraEvent where
  date_time : String
  time_stamp : Int
  issue_id : String
  action : String
deriving Repr, DecidableEq

/-- Embedding of the `GitEvent` named tuple. -/
structure GitEvent where
  date_time : String
  time_stamp : Int
  commit_hash : String
deriving Repr, DecidableEq

/-- The heterogeneous event list of `EventStreamCreator` holds both named
tuple kinds; the tagged union is their Lean counterpart. -/
inductive Event
  | jira : JiraEvent → Event
  | git : GitEvent → Event
deriving Repr, DecidableEq

/-- The sort key `e.time_stamp` used by `EventStreamCreator.generate`. -/
def Event.ts : Event → Int
  | .jira e => e.time_stamp
  | .git e => e.time_stamp

/-- Placeholder resolution date for unresolved issues
(`_DATE_TIME_FAR_IN_FUTURE`). -/
def _DATE_TIME_FAR_IN_FUTURE : String := "2030-12-31T23:59:59Z"

/-- The shared epoch shift (`EventStreamCreator.TIME_STAMP_OFFSET`, the year
2000 timestamp negated). -/
def TIME_STAMP_OFFSET : Int := -946684800

/-- The per-kind offsets set in `EventStreamCreator.__init__`. -/
structure EscConfig where
  jira_create_offset_seconds : Int := 0
  jira_resolve_offset_seconds : Int := 30 * 60
  git_commit_offset_seconds : Int := 0
deriving Repr, DecidableEq

/-- Embedding of `event._new_issue_created_event`. -/
def _new_issue_created_event (tz offset : Int) (issue : Issue) :
    Except String JiraEvent := do
  let ts ← date_time_to_timestamp tz issue.created_date
  .ok ⟨issue.created_date, ts + offset, issue.id, "create"⟩

/-- Embedding of `event._new_issue_resolved_event` (a falsy resolved date is
replaced by the far-future placeholder). -/
def _new_issue_resolved_event (tz offset : Int) (issue : Issue) :
    Except String JiraEvent := do
  let resolved_date :=
    match issue.resolved_date with
    | some d => if d = "" then _DATE_TIME_FAR_IN_FUTURE else d
    | none => _DATE_TIME_FAR_IN_FUTURE
  let ts ← date_time_to_timestamp tz resolved_date
  .ok ⟨resolved_date, ts + offset, issue.id, "resolve"⟩

/-- Embedding of `event._new_git_event`. -/
def _new_git_event (tz offset : Int) (c : Commit) : Except String GitEvent := do
  let ts ← date_time_to_timestamp tz c.committed_date
  .ok ⟨c.committed_date, ts + offset, c.commit_hash⟩

/-- Embedding of `EventStreamCreator.generate_jira_events`: per issue, one
creation event then one resolution event, both shifted by the epoch
constant. -/
def generate_jira_events (tz : Int) (cfg : EscConfig) :
    List Issue → Except String (List Event)
  | [] => .ok []
  | i :: rest => do
    let e1 ← _new_issue_created_event tz (cfg.jira_create_offset_seconds + TIME_STAMP_OFFSET) i
    let e2 ← _new_issue_resolved_event tz (cfg.jira_resolve_offset_seconds + TIME_STAMP_OFFSET) i
    let tail ← generate_jira_events tz cfg rest
    .ok (.jira e1 :: .jira e2 :: tail)

/-- Embedding of `EventStreamCreator.generate_git_events`. -/
def generate_git_events (tz : Int) (cfg : EscConfig) :
    List Commit → Except String (List Event)
  | [] => .ok []
  | c :: rest => do
    let e ← _new_git_event tz (cfg.git_commit_offset_seconds + TIME_STAMP_OFFSET) c
    let tail ← generate_git_events tz cfg rest
    .ok (.git e :: tail)

/-- The comparison used by `self.event_stream.sort(key=lambda e:
e.time_stamp)`. -/
def event_le (a b : Event) : Prop := a.ts ≤ b.ts

instance : DecidableRel event_le := fun a b =>
  inferInstanceAs (Decidable (a.ts ≤ b.ts))

instance : IsTotal Event event_le := ⟨fun a b => le_total a.ts b.ts⟩

instance : IsTrans Event event_le := ⟨fun _ _ _ => le_trans⟩

/-- Embedding of `EventStreamCreator.generate`: chain the jira and git events
and sort stably by timestamp (CPython `list.sort` is stable, and a stable
sort by a key is unique, so `List.insertionSort` by the timestamp preorder
is extensionally the same function). -/
def esc_generate (tz : Int) (cfg : EscConfig) (ds : DataSource) :
    Except String (List Event) := do
  let jira ← generate_jira_events tz cfg ds.issues
  let git ← generate_git_events tz cfg ds.change_sets
  .ok (List.insertionSort event_le (jira ++ git))

/-! ## profile.py -/

/-- Embedding of `profile.IssueLifeTimeManager`'s state (two Python lists). -/
structure IssueLifeTimeManager where
  resolved_issues : List String := []
  current_open_issues : List String := []
deriving Repr, DecidableEq

/-- Embedding of `IssueLifeTimeManager.create_issue`. -/
def create_issue (m : IssueLifeTimeManager) (issue_id : String) : IssueLifeTimeManager :=
  if issue_id ∈ m.current_open_issues then m
  else { m with current_open_issues := m.current_open_issues ++ [issue_id] }

/-- Embedding of `IssueLifeTimeManager.resolve_issue`: filter the id out of
the open list, then append it to the resolved list when absent. -/
def resolve_issue (m : IssueLifeTimeManager) (issue_id : String) : IssueLifeTimeManager :=
  let opens := m.current_open_issues.filter (fun e => decide (e ≠ issue_id))
  if issue_id ∈ m.resolved_issues then { m with current_open_issues := opens }
  else { resolved_issues := m.resolved_issues ++ [issue_id], current_open_issues := opens }

/-- Embedding of `profile._filter_change_sets`: restrict each commit's files
to recognized source files, keep the commits that remain relevant. -/
def _filter_change_sets (change_sets : List Commit) : List Commit :=
  (change_sets.map (fun c => { c with file_path := c.file_path.filter is_source_file })).filter
    is_relevant_commit

/-- Loop over `data_source.issue_to_change_set.items()` in
`_filter_data_source`. The kept hashes are the set
`used_change_set_ids.intersection(commits)`; the code then materializes that
set with `list(valid_ids)`, whose order is CPython's hash-dependent set
iteration order. `enum` is that environment-supplied enumeration, applied to
the canonical duplicate-free element list; the emptiness test is on the set
itself. -/
def filterLinks (enum : List String → List String) (used_issue_ids used_change_set_ids : List String) :
    List (String × List String) → List (String × List String)
  | [] => []
  | (issue_id, commits) :: rest =>
    if issue_id ∈ used_issue_ids then
      let valid_ids := (commits.filter (fun c => decide (c ∈ used_change_set_ids))).dedup
      if valid_ids ≠ [] then
        (issue_id, enum valid_ids) :: filterLinks enum used_issue_ids used_change_set_ids rest
      else filterLinks enum used_issue_ids used_change_set_ids rest
    else filterLinks enum used_issue_ids used_change_set_ids rest

/-- Embedding of `profile._filter_data_source` with the `DefaultFilter`. -/
def _filter_data_source (enum : List String → List String) (ds : DataSource) : DataSource :=
  let issues := (ds.issues.filter is_relevant_issue).map
    (fun i => { i with mapped_type := issue_type_to_category i })
  let used_issue_ids := issues.map (·.id)
  let change_sets := _filter_change_sets ds.change_sets
  let used_change_set_ids := change_sets.map (·.commit_hash)
  { issues := issues
    issue_to_change_set := filterLinks enum used_issue_ids used_change_set_ids ds.issue_to_change_set
    change_sets := change_sets }

/-- Embedding of `profile._all_linked_changed_sets` (observed only through
membership). -/
def _all_linked_changed_sets (ds : DataSource) : List String :=
  ds.issue_to_change_set.foldr (fun (kv : String × List String) acc => kv.2 ++ acc) []

/-- Embedding of `profile._prepare_data_source`: reject overlapping commit
hashes, mark the new change sets as to-predict, and filter the combined data
source. -/
def _prepare_data_source (enum : List String → List String) (ds : DataSource)
    (new_change_sets : List Commit) : Except String DataSource :=
  let history_commit_hashes := ds.change_sets.map (·.commit_hash)
  let new_commit_hashes := new_change_sets.map (·.commit_hash)
  if history_commit_hashes.any (fun h => new_commit_hashes.contains h) then
    .error "Commit hashes appear in history and new"
  else
    let marked_change_sets := new_change_sets.map (fun c => { c with to_predict := true })
    .ok (_filter_data_source enum
      { issues := ds.issues
        issue_to_change_set := ds.issue_to_change_set
        change_sets := ds.change_sets ++ marked_change_sets })

/-- The similarity oracles consulted by the engine
(`io.TextSimilarityHandler` and `io.TraceSimilarityHandler`); scores are
opaque numeric values, modeled as rationals. -/
structure SimHandlers where
  code_to_issue_lsi : String → String → String → Option ℚ
  code_to_issue_vsm_ngram : String → String → String → Option ℚ
  commit_to_issue_vsm_ngram : String → String → Option ℚ
  trace_metric : String → String → String → Option ℚ

/-- The always-absent oracles installed by `io._assure_i2c_handler_exists` /
`_assure_i2o_handler_exists` when none is configured. -/
def noneHandlers : SimHandlers :=
  { code_to_issue_lsi := fun _ _ _ => none
    code_to_issue_vsm_ngram := fun _ _ _ => none
    commit_to_issue_vsm_ngram := fun _ _ => none
    trace_metric := fun _ _ _ => none }

/-- Embedding of the nested previous/next linked-commit dictionaries of
`sample.TrainingSample`. -/
structure LinkedCommitInfo where
  time_difference : Option Int := none
  resource_overlap : Option ℚ := none
  committer_user_id : Option Nat := none
deriving Repr, DecidableEq

/-- Embedding of `sample.TrainingSample` (all slots, with Python `None`
initial values as `Option.none` / the `False` default for the label). -/
structure TrainingSample where
  date_time : Option String := none
  f00_commit_hash : Option String := none
  f01_issue_id : Option String := none
  f99_is_linked : Bool := false
  f03_commit_user_id : Option Nat := none
  f04_issue_user_id : Option Nat := none
  f06_is_commit_within_issue_life_time : Option Bool := none
  f07_09_previous_linked_commit : LinkedCommitInfo := {}
  f11_num_commits_to_this_issues : Option Nat := none
  f12_num_open_issues_at_commit_time : Option Nat := none
  f13_num_open_issues_from_committer_at_commit_time : Option Nat := none
  f14_time_difference_issue_creation_and_commit : Option Int := none
  f15_time_difference_commit_and_issue_resolve : Option Int := none
  f17_19_next_linked_commit : LinkedCommitInfo := {}
  f30_max_similarity_code_to_issue_lsi : Option ℚ := none
  f31_max_similarity_code_to_issue_vsm_with_ngram : Option ℚ := none
  f32_similarity_commit_to_issue_vsm_with_ngram : Option ℚ := none
  f40_max_trace_similarity : Option ℚ := none
deriving Repr, DecidableEq

/-- The state and lookup tables a `ProfileGenerator` carries while replaying
the event stream. -/
structure GenState where
  allowed_issue_types : List String
  issue_manager : IssueLifeTimeManager
  issue_id_to_issue : List (String × EIssue)
  commit_hash_to_change_set : List (String × ECommit)
  commit_hash_to_issue_ids : List (String × List String)
  issue_to_change_set : List (String × List String)
  linked_change_sets_unconstrained : List String
  handlers : SimHandlers

/-- The tolerance window
`ProfileGenerator.MAX_DIFFERENCE_BETWEEN_RESOLVED_AND_COMMITTED_SEC`
(`1.5 * 24 * 3600` seconds; the Python float has this integral value). -/
def MAX_DIFFERENCE_BETWEEN_RESOLVED_AND_COMMITTED_SEC : Int := 129600

/-- The oracle fallback `ProfileGenerator.NO_SIMILARITY`. -/
def NO_SIMILARITY : ℚ := 0

/-- Python membership test `issue["mapped_type"] in allowed` where the value
may be `None` (never a member of a list of strings). -/
def mappedTypeAllowed (allowed : List String) (mt : Option String) : Bool :=
  match mt with
  | some t => allowed.contains t
  | none => false

/-- Embedding of `ProfileGenerator.get_number_of_links_to_issue_before`
(commit-date strings compare lexicographically, as in Python). -/
def get_number_of_links_to_issue_before (g : GenState) (issue_id date_time_before : String) : Nat :=
  ((dlookup g.issue_to_change_set issue_id).getD []).countP (fun commit_hash =>
    match dlookup g.commit_hash_to_change_set commit_hash with
    | some commit => pyStrLt commit.committed_date date_time_before
    | none => false)

/-- Embedding of
`ProfileGenerator.get_number_of_currently_open_issues_assigned_to_user`. -/
def get_number_of_currently_open_issues_assigned_to_user (g : GenState) (user_id : Nat) : Nat :=
  g.issue_manager.current_open_issues.countP (fun issue_id =>
    match dlookup g.issue_id_to_issue issue_id with
    | some issue => decide (user_id = issue.user_id)
    | none => false)

/-- Python `max(iterable, default=d)`: the default is returned only when the
iterable is empty. -/
def pymax (default : ℚ) : List ℚ → ℚ
  | [] => default
  | v :: rest => rest.foldl max v

/-- Embedding of `profile._get_maximum_text_similarity`: maximum of the
non-`None` per-file scores, with the configured default. -/
def _get_maximum_text_similarity (handler : String → String → String → Option ℚ)
    (issue_id commit_hash : String) (file_paths : List String) (default : ℚ) : ℚ :=
  pymax default (file_paths.filterMap (fun fp => handler issue_id commit_hash fp))

/-- Embedding of `ProfileGenerator.assign_text_similarities`. -/
def assign_text_similarities (g : GenState) (commit : ECommit) (issue : EIssue)
    (s : TrainingSample) : TrainingSample :=
  let value := g.handlers.commit_to_issue_vsm_ngram issue.id commit.commit_hash
  { s with
    f30_max_similarity_code_to_issue_lsi := some
      (_get_maximum_text_similarity g.handlers.code_to_issue_lsi issue.id commit.commit_hash
        commit.file_path NO_SIMILARITY)
    f31_max_similarity_code_to_issue_vsm_with_ngram := some
      (_get_maximum_text_similarity g.handlers.code_to_issue_vsm_ngram issue.id commit.commit_hash
        commit.file_path NO_SIMILARITY)
    f32_similarity_commit_to_issue_vsm_with_ngram := some (value.getD NO_SIMILARITY) }

/-- Embedding of `ProfileGenerator.assign_trace_metric`. -/
def assign_trace_metric (g : GenState) (commit : ECommit) (issue : EIssue)
    (s : TrainingSample) : TrainingSample :=
  { s with
    f40_max_trace_similarity := some
      (_get_maximum_text_similarity g.handlers.trace_metric issue.id commit.commit_hash
        commit.file_path NO_SIMILARITY) }

/-- The comparison of `sorted(linked_commits, key=lambda c:
c["committed_date"])`. -/
def commit_date_le (a b : ECommit) : Prop := pyStrLe a.committed_date b.committed_date = true

instance : DecidableRel commit_date_le := fun a b =>
  inferInstanceAs (Decidable (pyStrLe a.committed_date b.committed_date = true))

/-- Embedding of `ProfileGenerator.check_previous_and_next_commits`: locate
the nearest strictly-earlier and the nearest strictly-later linked commit in
the stable date order and fill the two neighbor descriptors. -/
def check_previous_and_next_commits (tz : Int) (g : GenState) (commit : ECommit)
    (issue : EIssue) (s : TrainingSample) : Except String TrainingSample :=
  let linked_commit_hashes := (dlookup g.issue_to_change_set issue.id).getD []
  if linked_commit_hashes = [] then .ok s
  else
    let linked_commits := linked_commit_hashes.filterMap
      (fun h => dlookup g.commit_hash_to_change_set h)
    if linked_commits.length = 0 then .ok s
    else
      let sorted_linked_commits := List.insertionSort commit_date_le linked_commits
      let committed_date := commit.committed_date
      let previous_commits := sorted_linked_commits.takeWhile
        (fun c => pyStrLt c.committed_date committed_date)
      let next_commits := sorted_linked_commits.dropWhile
        (fun c => pyStrLe c.committed_date committed_date)
      do
        let s1 ←
          match previous_commits.getLast? with
          | some previous_commit => do
            let t1 ← date_time_to_timestamp tz commit.committed_date
            let t2 ← date_time_to_timestamp tz previous_commit.committed_date
            let overlap := resource_similarity commit.file_path previous_commit.file_path
            .ok { s with f07_09_previous_linked_commit :=
              ⟨some (t1 - t2), some overlap, some previous_commit.user_id⟩ }
          | none => .ok s
        match next_commits.head? with
        | some next_commit => do
          let t1 ← date_time_to_timestamp tz commit.committed_date
          let t2 ← date_time_to_timestamp tz next_commit.committed_date
          let overlap := resource_similarity commit.file_path next_commit.file_path
          .ok { s1 with f17_19_next_linked_commit :=
            ⟨some (t2 - t1), some overlap, some next_commit.user_id⟩ }
        | none => .ok s1

/-- Embedding of `ProfileGenerator.create_training_sample`. The internal
sanity `assert f13 <= f12` always passes (proved below), so it does not
contribute a failure path. -/
def create_training_sample (tz : Int) (g : GenState) (commit : ECommit) (issue : EIssue) :
    Except String TrainingSample := do
  let commit_hash := commit.commit_hash
  let issue_id := issue.id
  let linked_issue_ids := (dlookup g.commit_hash_to_issue_ids commit_hash).getD []
  let s : TrainingSample :=
    { f99_is_linked := !linked_issue_ids.isEmpty && linked_issue_ids.contains issue_id
      f00_commit_hash := some commit_hash
      f01_issue_id := some issue_id
      date_time := some commit.committed_date
      f03_commit_user_id := some commit.user_id
      f04_issue_user_id := some issue.user_id
      f11_num_commits_to_this_issues := some
        (get_number_of_links_to_issue_before g issue_id commit.committed_date)
      f12_num_open_issues_at_commit_time := some g.issue_manager.current_open_issues.length
      f13_num_open_issues_from_committer_at_commit_time := some
        (get_number_of_currently_open_issues_assigned_to_user g commit.user_id) }
  let t1 ← date_time_to_timestamp tz issue.created_date
  let t2 ← date_time_to_timestamp tz commit.committed_date
  let s := { s with f14_time_difference_issue_creation_and_commit := some (t2 - t1) }
  let s ←
    match issue.resolved_date with
    | some resolved_date =>
      if resolved_date = "" then
        .ok { s with f15_time_difference_commit_and_issue_resolve := none }
      else do
        let t3 ← date_time_to_timestamp tz resolved_date
        .ok { s with f15_time_difference_commit_and_issue_resolve := some (t3 - t2) }
    | none => .ok { s with f15_time_difference_commit_and_issue_resolve := none }
  let s := assign_text_similarities g commit issue s
  let s := assign_trace_metric g commit issue s
  check_previous_and_next_commits tz g commit issue s

/-- The linked-issue loop of `create_samples_for_change_set`: one sample per
linked issue whose category is allowed, with the lifetime flag set from the
open set. -/
def samples_for_linked (tz : Int) (g : GenState) (commit : ECommit) :
    List String → Except String (List TrainingSample)
  | [] => .ok []
  | issue_id :: rest =>
    match dlookup g.issue_id_to_issue issue_id with
    | some issue =>
      if mappedTypeAllowed g.allowed_issue_types issue.mapped_type then do
        let sample ← create_training_sample tz g commit issue
        let flag := g.issue_manager.current_open_issues.contains issue_id
        let sample := { sample with f06_is_commit_within_issue_life_time := some flag }
        let tail ← samples_for_linked tz g commit rest
        .ok (sample :: tail)
      else samples_for_linked tz g commit rest
    | none => samples_for_linked tz g commit rest

/-- The currently-open-issue loop of `create_samples_for_change_set`. -/
def samples_for_open (tz : Int) (g : GenState) (commit : ECommit) :
    List String → Except String (List TrainingSample)
  | [] => .ok []
  | issue_id :: rest =>
    match dlookup g.issue_id_to_issue issue_id with
    | some issue => do
      let sample ← create_training_sample tz g commit issue
      let sample := { sample with f06_is_commit_within_issue_life_time := some true }
      let tail ← samples_for_open tz g commit rest
      .ok (sample :: tail)
    | none => samples_for_open tz g commit rest

/-- The resolved-issue loop of `create_samples_for_change_set`: only issues
resolved within the tolerance window of the commit time contribute. A missing
(`None`) resolution date is passed to `date_time_to_timestamp`, which rejects
it, exactly as the falsy check in the Python function does. -/
def samples_for_resolved (tz : Int) (g : GenState) (commit : ECommit) (commit_time_stamp : Int) :
    List String → Except String (List TrainingSample)
  | [] => .ok []
  | issue_id :: rest =>
    match dlookup g.issue_id_to_issue issue_id with
    | some issue => do
      let resolved_time_stamp ← date_time_to_timestamp tz (issue.resolved_date.getD "")
      let diff_sec := |commit_time_stamp - resolved_time_stamp|
      if diff_sec < MAX_DIFFERENCE_BETWEEN_RESOLVED_AND_COMMITTED_SEC then do
        let sample ← create_training_sample tz g commit issue
        let sample := { sample with f06_is_commit_within_issue_life_time := some false }
        let tail ← samples_for_resolved tz g commit commit_time_stamp rest
        .ok (sample :: tail)
      else samples_for_resolved tz g commit commit_time_stamp rest
    | none => samples_for_resolved tz g commit commit_time_stamp rest

/-- Embedding of `ProfileGenerator.create_samples_for_change_set`. For a
training commit with at least one known link only the linked loop runs;
otherwise the open and resolved loops run. -/
def create_samples_for_change_set (tz : Int) (g : GenState) (commit_hash : String) :
    Except String (List TrainingSample) :=
  match dlookup g.commit_hash_to_change_set commit_hash with
  | none => .error ("Could not find commit " ++ commit_hash)
  | some commit =>
    let is_training := !commit.to_predict
    let linked_issue_ids := (dlookup g.commit_hash_to_issue_ids commit_hash).getD []
    if is_training && !linked_issue_ids.isEmpty then
      samples_for_linked tz g commit linked_issue_ids
    else do
      let open_samples ← samples_for_open tz g commit g.issue_manager.current_open_issues
      let commit_time_stamp ← date_time_to_timestamp tz commit.committed_date
      let resolved_samples ← samples_for_resolved tz g commit commit_time_stamp
        g.issue_manager.resolved_issues
      .ok (open_samples ++ resolved_samples)

/-- Embedding of `ProfileGenerator.is_relevant_event`. -/
def is_relevant_event (g : GenState) : Event → Bool
  | .git ge =>
    (match dlookup g.commit_hash_to_issue_ids ge.commit_hash with
     | none => !g.linked_change_sets_unconstrained.contains ge.commit_hash
     | some linked_issues =>
       linked_issues.any (fun issue_id =>
         match dlookup g.issue_id_to_issue issue_id with
         | some issue => mappedTypeAllowed g.allowed_issue_types issue.mapped_type
         | none => false))
  | .jira je =>
    (match dlookup g.issue_id_to_issue je.issue_id with
     | none => false
     | some issue => mappedTypeAllowed g.allowed_issue_types issue.mapped_type)

/-- Embedding of `ProfileGenerator.build_issue_lookup`: keep issues of an
allowed category, attach the jira-side identity (or the unknown-jira
sentinel), and key them by issue id. -/
def build_issue_lookup (pu : ProjectUsers) (allowed : List String) (unknown_jira_user_id : Nat)
    (acc : List (String × EIssue)) : List Issue → Except String (List (String × EIssue))
  | [] => .ok acc
  | raw_issue :: rest =>
    if mappedTypeAllowed allowed raw_issue.mapped_type then do
      let uid ← get_link_id pu raw_issue.assignee_username "jira"
      let user_id := uid.getD unknown_jira_user_id
      build_issue_lookup pu allowed unknown_jira_user_id
        (dinsert acc raw_issue.id { toIssue := raw_issue, user_id := user_id }) rest
    else build_issue_lookup pu allowed unknown_jira_user_id acc rest

/-- Embedding of `ProfileGenerator.build_change_set_lookup`: attach the
git-side identity (or the unknown-git sentinel) and key by commit hash. -/
def build_change_set_lookup (pu : ProjectUsers) (unknown_git_user_id : Nat)
    (acc : List (String × ECommit)) : List Commit → Except String (List (String × ECommit))
  | [] => .ok acc
  | raw_commit :: rest => do
    let uid ← get_link_id pu raw_commit.author_email "git"
    let user_id := uid.getD unknown_git_user_id
    build_change_set_lookup pu unknown_git_user_id
      (dinsert acc raw_commit.commit_hash { toCommit := raw_commit, user_id := user_id }) rest

/-- Embedding of `ProfileGenerator.build_change_set_issue_inverse_lookup`. -/
def build_change_set_issue_inverse_lookup (links : List (String × List String)) :
    List (String × List String) :=
  links.foldl
    (fun acc (kv : String × List String) =>
      kv.2.foldl
        (fun acc commit_hash =>
          match dlookup acc commit_hash with
          | some issues =>
            if kv.1 ∈ issues then acc else dinsert acc commit_hash (issues ++ [kv.1])
          | none => dinsert acc commit_hash [kv.1])
        acc)
    []

/-- Embedding of the replay loop of `ProfileGenerator.run`: skip irrelevant
events, feed jira events to the lifetime manager, and for each git event
route the generated samples to the training or the to-predict collector
(both modeled as the result lists, in emission order). -/
def run_events (tz : Int) (g : GenState) :
    List Event → Except String (List TrainingSample × List TrainingSample)
  | [] => .ok ([], [])
  | e :: rest =>
    if is_relevant_event g e then
      match e with
      | .jira je =>
        if je.action = "create" then run_events tz { g with issue_manager := create_issue g.issue_manager je.issue_id } rest
        else if je.action = "resolve" then run_events tz { g with issue_manager := resolve_issue g.issue_manager je.issue_id } rest
        else .error ("Unknown event action " ++ je.action)
      | .git ge => do
        let samples ← create_samples_for_change_set tz g ge.commit_hash
        match dlookup g.commit_hash_to_change_set ge.commit_hash with
        | none => .error ("KeyError: " ++ ge.commit_hash)
        | some commit => do
          let (tr, pr) ← run_events tz g rest
          if commit.to_predict then .ok (tr, samples ++ pr) else .ok (samples ++ tr, pr)
    else run_events tz g rest

/-- End-to-end embedding of constructing a `ProfileGenerator` and calling
`run`: prepare and filter the data source, build rosters and lookup tables,
generate the event stream, and replay it. `enum` is the environment's set
enumeration (see `filterLinks`); `tz` is the environment's UTC offset (see
`date_time_to_timestamp`). -/
def pipeline (tz : Int) (cfg : EscConfig) (enum : List String → List String)
    (handlers : SimHandlers) (data_source : DataSource) (change_sets_to_predict : List Commit)
    (issue_types : List String) :
    Except String (List TrainingSample × List TrainingSample) := do
  let ds ← _prepare_data_source enum data_source change_sets_to_predict
  let project_users := build_project_users ds
  let unknown_jira_user_id := project_users.team_links.length
  let unknown_git_user_id := unknown_jira_user_id + 1
  let linked_change_sets_unconstrained := _all_linked_changed_sets data_source
  let events ← esc_generate tz cfg ds
  let issue_id_to_issue ← build_issue_lookup project_users issue_types unknown_jira_user_id [] ds.issues
  let commit_hash_to_change_set ← build_change_set_lookup project_users unknown_git_user_id [] ds.change_sets
  let commit_hash_to_issue_ids := build_change_set_issue_inverse_lookup ds.issue_to_change_set
  let g : GenState :=
    { allowed_issue_types := issue_types
      issue_manager := {}
      issue_id_to_issue := issue_id_to_issue
      commit_hash_to_change_set := commit_hash_to_change_set
      commit_hash_to_issue_ids := commit_hash_to_issue_ids
      issue_to_change_set := ds.issue_to_change_set
      linked_change_sets_unconstrained := linked_change_sets_unconstrained
      handlers := handlers }
  run_events tz g events

/-! ## Derived notions used by the verification statements -/

/-- One operation on an `IssueLifeTimeManager` (the two mutating methods). -/
inductive IssueOp
  | create (issue_id : String)
  | resolve (issue_id : String)
deriving Repr, DecidableEq

/-- Dispatch one operation to the corresponding method. -/
def ilm_step (m : IssueLifeTimeManager) : IssueOp → IssueLifeTimeManager
  | .create i => create_issue m i
  | .resolve i => resolve_issue m i

/-- Replay a sequence of operations against an initially empty manager. -/
def run_issue_ops (ops : List IssueOp) : IssueLifeTimeManager :=
  ops.foldl ilm_step {}

/-- Relation between two operations in sequence order: a resolve of an id is
never followed (anywhere later) by a create of the same id. -/
def noReopenR : IssueOp → IssueOp → Prop
  | .resolve i, b => b ≠ .create i
  | .create _, _ => True

instance : DecidableRel noReopenR := fun a b =>
  match a with
  | .create _ => isTrue trivial
  | .resolve i => inferInstanceAs (Decidable (b ≠ .create i))

/-- An operation sequence in which no id is created again after having been
resolved (the shape of every sequence the engine feeds to the manager). -/
def no_reopen (ops : List IssueOp) : Prop := ops.Pairwise noReopenR

/-- Link `idx` has a jira-side member owning the handle (the declarative
reading of the search `ProfileGenerator.get_link_id` performs). -/
def owns_jira_handle (pu : ProjectUsers) (user_name : String) (idx : Nat) : Prop :=
  ∃ ld j dev, pu.team_links.get? idx = some ld ∧ ld.jira_idx = some j
    ∧ pu.jira_team.get? j = some dev ∧ user_name ∈ dev.user_names

/-- Link `idx` has a git-side member owning the handle. -/
def owns_git_handle (pu : ProjectUsers) (user_name : String) (idx : Nat) : Prop :=
  ∃ ld gi dev, pu.team_links.get? idx = some ld ∧ ld.git_idx = some gi
    ∧ pu.git_team.get? gi = some dev ∧ user_name ∈ dev.user_names

/-- The jira-side identity lookup as the engine uses it: `get_link_id`
followed by the `unknown_jira_user_id = len(self.project_users)` fallback of
`ProfileGenerator.build_issue_lookup`. -/
def lookup_jira_user_id (pu : ProjectUsers) (user_name : String) : Except String Nat :=
  (get_link_id pu user_name "jira").map (fun uid => uid.getD pu.team_links.length)

/-- The git-side identity lookup as the engine uses it: `get_link_id`
followed by the `unknown_git_user_id = len(self.project_users) + 1` fallback
of `ProfileGenerator.build_change_set_lookup`. -/
def lookup_git_user_id (pu : ProjectUsers) (user_name : String) : Except String Nat :=
  (get_link_id pu user_name "git").map (fun uid => uid.getD (pu.team_links.length + 1))

/-- A linked issue id is in scope for sampling: present in the issue lookup
with an allowed mapped category (the guard of the linked-issue loop). -/
def inScope (g : GenState) (issue_id : String) : Bool :=
  match dlookup g.issue_id_to_issue issue_id with
  | some issue => mappedTypeAllowed g.allowed_issue_types issue.mapped_type
  | none => false

/-- A resolved issue id is within the tolerance window of a commit timestamp
(the guard of the resolved-issue loop): present in the lookup, with a
resolution timestamp whose absolute difference from the commit timestamp is
strictly below the tolerance. -/
def within_window (tz : Int) (g : GenState) (commit_time_stamp : Int) (issue_id : String) : Bool :=
  match dlookup g.issue_id_to_issue issue_id with
  | some issue =>
    match date_time_to_timestamp tz (issue.resolved_date.getD "") with
    | .ok resolved_time_stamp =>
      |commit_time_stamp - resolved_time_stamp| < MAX_DIFFERENCE_BETWEEN_RESOLVED_AND_COMMITTED_SEC
    | .error _ => false
  | none => false

/-! ## Concrete inputs used by the counterexamples and witnesses -/

/-- A roster with a single (jira-only) link: Alice with handle `alice`. -/
def puEx : ProjectUsers :=
  { jira_team := [{ number := 0, names := ["Alice"], user_names := ["alice"] }]
    git_team := []
    team_links := [{ jira_idx := some 0, git_idx := none }] }

/-- In-scope issue `A`, resolved one day before `cY`'s commit time. -/
def iA : EIssue :=
  { id := "A"
    created_date := "2017-01-01T00:00:00Z"
    resolved_date := some "2017-01-31T00:00:00Z"
    itype := "Bug"
    status := "Resolved"
    resolution := some "Fixed"
    assignee := "Alice"
    assignee_username := "alice"
    mapped_type := some "bug"
    user_id := 0 }

/-- In-scope issue `B`, still open. -/
def iB : EIssue :=
  { id := "B"
    created_date := "2017-01-02T00:00:00Z"
    resolved_date := none
    itype := "Bug"
    status := "Open"
    resolution := none
    assignee := "Alice"
    assignee_username := "alice"
    mapped_type := some "bug"
    user_id := 0 }

/-- Commit `X` marked as to-predict, linked to issue `A`. -/
def cX : ECommit :=
  { commit_hash := "X"
    author := "Bob"
    author_email := "bob@x"
    committed_date := "2017-02-01T00:00:00Z"
    file_path := ["src/a.java"]
    to_predict := true
    user_id := 1 }

/-- The same commit as `cX` but part of the training history. -/
def cXT : ECommit := { cX with to_predict := false }

/-- Unlinked training commit `Y`. -/
def cY : ECommit :=
  { commit_hash := "Y"
    author := "Bob"
    author_email := "bob@x"
    committed_date := "2017-02-01T00:00:00Z"
    file_path := ["src/b.java"]
    to_predict := false
    user_id := 1 }

/-- Engine state in which commit `X` (to-predict) is linked to in-scope issue
`A` while issue `B` is currently open. -/
def gX : GenState :=
  { allowed_issue_types := ["bug"]
    issue_manager := { resolved_issues := [], current_open_issues := ["B"] }
    issue_id_to_issue := [("A", iA), ("B", iB)]
    commit_hash_to_change_set := [("X", cX)]
    commit_hash_to_issue_ids := [("X", ["A"])]
    issue_to_change_set := [("A", ["X"])]
    linked_change_sets_unconstrained := ["X"]
    handlers := noneHandlers }

/-- The state `gX` with commit `X` in the training history instead. -/
def gXT : GenState := { gX with commit_hash_to_change_set := [("X", cXT)] }

/-- Engine state in which training commit `Y` has no known links, issue `B`
is open and issue `A` was resolved within the tolerance window. -/
def gY : GenState :=
  { allowed_issue_types := ["bug"]
    issue_manager := { resolved_issues := ["A"], current_open_issues := ["B"] }
    issue_id_to_issue := [("A", iA), ("B", iB)]
    commit_hash_to_change_set := [("Y", cY)]
    commit_hash_to_issue_ids := []
    issue_to_change_set := []
    linked_change_sets_unconstrained := []
    handlers := noneHandlers }

/-- Issue for the determinism failing input: in scope and open throughout. -/
def tieIssue : Issue :=
  { id := "I1"
    created_date := "2017-01-01T00:00:00Z"
    resolved_date := none
    itype := "Bug"
    status := "Open"
    resolution := none
    assignee := "Alice"
    assignee_username := "alice" }

/-- First of two linked commits sharing the same committed date. -/
def tieCommitA : Commit :=
  { commit_hash := "A"
    author := "Bob"
    author_email := "bob@x"
    committed_date := "2017-02-01T10:00:00Z"
    file_path := ["src/a.java"] }

/-- Second linked commit with the identical committed date. -/
def tieCommitB : Commit :=
  { commit_hash := "B"
    author := "Carol"
    author_email := "carol@x"
    committed_date := "2017-02-01T10:00:00Z"
    file_path := ["src/b.java"] }

/-- A later unlinked commit whose sample reports the previous linked
commit. -/
def tieCommitC : Commit :=
  { commit_hash := "C"
    author := "Dave"
    author_email := "dave@x"
    committed_date := "2017-03-01T10:00:00Z"
    file_path := ["src/c.java"] }

/-- The determinism failing input: one issue linked to two commits with the
same committed date, plus a later unlinked commit. -/
def dsTie : DataSource :=
  { issues := [tieIssue]
    issue_to_change_set := [("I1", ["A", "B"])]
    change_sets := [tieCommitA, tieCommitB, tieCommitC] }

/-- Projection of a pipeline result to the previous-linked-commit committer
ids of the training samples (a field whose value depends on the set
enumeration order at the failing input). -/
def prevCommitterIds (r : Except String (List TrainingSample × List TrainingSample)) :
    Except String (List (Option Nat)) :=
  r.map (fun p => p.1.map (fun s => s.f07_09_previous_linked_commit.committer_user_id))

/-- Jira events of `dsTie` under the default configuration. -/
def jiraW : List Event := (generate_jira_events 0 {} dsTie.issues).toOption.getD []

/-- Git events of `dsTie` under the default configuration. -/
def gitW : List Event := (generate_git_events 0 {} dsTie.change_sets).toOption.getD []

/-- The sorted event stream of `dsTie` under the default configuration. -/
def streamW : List Event := (esc_generate 0 {} dsTie).toOption.getD []

/-- A concrete training sample produced from state `gXT`. -/
def sampleW : TrainingSample := (create_training_sample 0 gXT cXT iB).toOption.getD {}

/-- The samples the engine emits for the linked training commit `X` in state
`gXT`. -/
def samplesXT : List TrainingSample :=
  (create_samples_for_change_set 0 gXT "X").toOption.getD []

/-- The samples the engine emits for the unlinked training commit `Y` in
state `gY`. -/
def samplesY : List TrainingSample :=
  (create_samples_for_change_set 0 gY "Y").toOption.getD []

end Spojit
namespace Spojit

/-! ## Helper lemmas -/

/-- Inversion of a successful `Except` bind. -/
theorem except_bind_ok {α β : Type} {x : Except String α} {f : α → Except String β} {b : β}
    (h : (x >>= f) = .ok b) : ∃ a, x = .ok a ∧ f a = .ok b := by
  cases x <;> simp_all [Bind.bind, Except.bind]

/-! ## C8 -/

/-- C8: `date_time_to_timestamp` maps `"2017-06-20T16:00:00Z"` to
`1497967200` (in the UTC+2 environment the repository's doctest and test
suite presuppose), rejects the empty string, and rejects every string the
`%Y-%m-%dT%H:%M:%SZ` pattern does not match, in every timezone environment. -/
theorem c8_timestamp_conversion :
    date_time_to_timestamp 7200 "2017-06-20T16:00:00Z" = .ok 1497967200
    ∧ (∀ tz : Int, date_time_to_timestamp tz "" = .error "invalid input")
    ∧ (∀ (tz : Int) (s : String), strptimeMatch s = none →
        (date_time_to_timestamp tz s).isOk = false) := by
  refine ⟨by decide, fun tz => rfl, fun tz s h => ?_⟩
  unfold date_time_to_timestamp
  by_cases hs : s = ""
  · rw [if_pos hs]; rfl
  · rw [if_neg hs]
    have hz : strptimeIsoZ s = none := by unfold strptimeIsoZ; rw [h]
    rw [hz]; rfl

/-- Witness for C8 at concrete malformed input. -/
theorem c8_timestamp_conversion_witness :
    (date_time_to_timestamp 0 "junk").isOk = false :=
  c8_timestamp_conversion.2.2 0 "junk" (by rfl)

/-! ## C9 -/

/-- C9: `resource_similarity` is symmetric in its two collections. -/
theorem c9_resource_similarity_symm (first second : List String) :
    resource_similarity first second = resource_similarity second first := by
  unfold resource_similarity
  rcases Nat.lt_trichotomy second.toFinset.card first.toFinset.card with h | h | h
  · rw [if_pos h, if_neg (by omega : ¬ first.toFinset.card < second.toFinset.card),
      Finset.inter_comm]
  · rw [if_neg (by omega : ¬ second.toFinset.card < first.toFinset.card),
      if_neg (by omega : ¬ first.toFinset.card < second.toFinset.card), h,
      Finset.inter_comm]
  · rw [if_neg (by omega : ¬ second.toFinset.card < first.toFinset.card), if_pos h,
      Finset.inter_comm]

end Spojit
namespace Spojit

/-! ## C10 -/

/-- C10: with an empty link list `get_link_id` returns `None` for every
handle and team name (the team-name validity check sits inside the per-link
loop), and the unknown-team-name `ValueError` is raised exactly when at
least one link exists. -/
theorem c10_get_link_id_empty_links :
    (∀ (jt gt : List Developer) (user_name team_name : String),
      get_link_id ⟨jt, gt, []⟩ user_name team_name = .ok none)
    ∧ (∀ (pu : ProjectUsers) (user_name team_name : String), pu.team_links ≠ [] →
        team_name ≠ "jira" → team_name ≠ "git" →
        get_link_id pu user_name team_name = .error ("unknown team name " ++ team_name)) := by
  constructor
  · intro jt gt user_name team_name
    rfl
  · intro pu user_name team_name hne hj hg
    unfold get_link_id
    cases hl : pu.team_links with
    | nil => exact absurd hl hne
    | cons ld rest =>
      unfold get_link_id_go
      rw [if_neg hj, if_neg hg]

/-- Witness for C10 at concrete inputs. -/
theorem c10_get_link_id_empty_links_witness :
    get_link_id ⟨[], [], []⟩ "alice" "github" = .ok none
    ∧ get_link_id puEx "alice" "github" = .error ("unknown team name " ++ "github") :=
  ⟨c10_get_link_id_empty_links.1 [] [] "alice" "github",
    c10_get_link_id_empty_links.2 puEx "alice" "github" (by decide) (by decide) (by decide)⟩

/-! ## C3 -/

/-- Creating an issue never changes the resolved list. -/
theorem create_issue_resolved (m : IssueLifeTimeManager) (j : String) :
    (create_issue m j).resolved_issues = m.resolved_issues := by
  unfold create_issue; split <;> rfl

/-- The open list after a create operation. -/
theorem create_issue_open (m : IssueLifeTimeManager) (j : String) :
    (create_issue m j).current_open_issues =
      if j ∈ m.current_open_issues then m.current_open_issues
      else m.current_open_issues ++ [j] := by
  unfold create_issue; split <;> simp_all

/-- The open list after a resolve operation. -/
theorem resolve_issue_open (m : IssueLifeTimeManager) (j : String) :
    (resolve_issue m j).current_open_issues =
      m.current_open_issues.filter (fun e => decide (e ≠ j)) := by
  unfold resolve_issue; split <;> rfl

/-- The resolved list after a resolve operation. -/
theorem resolve_issue_resolved (m : IssueLifeTimeManager) (j : String) :
    (resolve_issue m j).resolved_issues =
      if j ∈ m.resolved_issues then m.resolved_issues else m.resolved_issues ++ [j] := by
  unfold resolve_issue; split <;> simp_all

/-- Resolved ids persist across further operations. -/
theorem ilm_resolved_mono {i : String} :
    ∀ (l : List IssueOp) (m : IssueLifeTimeManager), i ∈ m.resolved_issues →
      i ∈ (l.foldl ilm_step m).resolved_issues := by
  intro l
  induction l with
  | nil => intro m h; exact h
  | cons op rest ih =>
    intro m h
    refine ih _ ?_
    cases op with
    | create j => rw [ilm_step, create_issue_resolved]; exact h
    | resolve j =>
      rw [ilm_step, resolve_issue_resolved]
      split
      · exact h
      · exact List.mem_append_left _ h

/-- A resolved id after replay was resolved before or by one of the
operations. -/
theorem ilm_resolved_src {i : String} :
    ∀ (l : List IssueOp) (m : IssueLifeTimeManager),
      i ∈ (l.foldl ilm_step m).resolved_issues →
      i ∈ m.resolved_issues ∨ (IssueOp.resolve i) ∈ l := by
  intro l
  induction l with
  | nil => intro m h; exact Or.inl h
  | cons op rest ih =>
    intro m h
    rcases ih _ h with h' | h'
    · cases op with
      | create j =>
        rw [ilm_step, create_issue_resolved] at h'
        exact Or.inl h'
      | resolve j =>
        rw [ilm_step, resolve_issue_resolved] at h'
        split at h'
        · exact Or.inl h'
        · rcases List.mem_append.mp h' with h' | h'
          · exact Or.inl h'
          · simp only [List.mem_singleton] at h'
            subst h'
            simp
    · simp [h']

/-- An id with no create operation in the remaining list never enters the
open set. -/
theorem ilm_open_no_create {i : String} :
    ∀ (l : List IssueOp) (m : IssueLifeTimeManager), (IssueOp.create i) ∉ l →
      i ∉ m.current_open_issues → i ∉ (l.foldl ilm_step m).current_open_issues := by
  intro l
  induction l with
  | nil => intro m _ h; exact h
  | cons op rest ih =>
    intro m hnc ho
    have hnc' : (IssueOp.create i) ∉ rest := fun hm => hnc (List.mem_cons_of_mem _ hm)
    refine ih _ hnc' ?_
    cases op with
    | create j =>
      have hij : j ≠ i := fun hji => hnc (by simp [hji])
      rw [ilm_step, create_issue_open]
      split
      · exact ho
      · intro hm
        rcases List.mem_append.mp hm with hm | hm
        · exact ho hm
        · simp only [List.mem_singleton] at hm
          exact hij hm.symm
    | resolve j =>
      rw [ilm_step, resolve_issue_open]
      intro hm
      exact ho (List.mem_filter.mp hm).1

/-- Replaying a no-reopen operation list from a state whose resolved ids are
never created again keeps the open and resolved sets disjoint. -/
theorem ilm_disjoint_foldl :
    ∀ (l : List IssueOp) (m : IssueLifeTimeManager), l.Pairwise noReopenR →
      (∀ i, i ∈ m.resolved_issues → (IssueOp.create i) ∉ l) →
      (∀ i, i ∈ m.current_open_issues → i ∉ m.resolved_issues) →
      ∀ i, i ∈ (l.foldl ilm_step m).current_open_issues →
        i ∉ (l.foldl ilm_step m).resolved_issues := by
  intro l
  induction l with
  | nil => exact fun m _ _ hd i h h' => hd i h h'
  | cons op rest ih =>
    intro m hp hres hd
    rcases List.pairwise_cons.mp hp with ⟨hhead, htail⟩
    cases op with
    | create j =>
      refine ih _ htail ?_ ?_
      · intro i hi
        rw [ilm_step, create_issue_resolved] at hi
        exact fun hm => (hres i hi) (List.mem_cons_of_mem _ hm)
      · intro i hi
        rw [ilm_step, create_issue_open] at hi
        rw [ilm_step, create_issue_resolved]
        split at hi
        · exact hd i hi
        · rcases List.mem_append.mp hi with hi | hi
          · exact hd i hi
          · simp only [List.mem_singleton] at hi
            subst hi
            exact fun hres' => (hres i hres') (by simp)
    | resolve j =>
      refine ih _ htail ?_ ?_
      · intro i hi
        rw [ilm_step, resolve_issue_resolved] at hi
        split at hi
        · exact fun hm => (hres i hi) (List.mem_cons_of_mem _ hm)
        · rcases List.mem_append.mp hi with hi | hi
          · exact fun hm => (hres i hi) (List.mem_cons_of_mem _ hm)
          · simp only [List.mem_singleton] at hi
            subst hi
            exact fun hm => (hhead _ hm) rfl
      · intro i hi
        rw [ilm_step, resolve_issue_open] at hi
        rw [ilm_step, resolve_issue_resolved]
        have hmem := List.mem_filter.mp hi
        have hne : i ≠ j := by simpa using hmem.2
        split
        · exact hd i hmem.1
        · intro hm
          rcases List.mem_append.mp hm with hm | hm
          · exact hd i hmem.1 hm
          · simp only [List.mem_singleton] at hm
            exact hne hm

end Spojit
namespace Spojit

/-- C3 counterexample: the operation sequence create-resolve-create on the
same id leaves it simultaneously open and resolved, refuting the claim for
arbitrary operation sequences. -/
theorem c3_lifetime_counterexample :
    "a" ∈ (run_issue_ops [.create "a", .resolve "a", .create "a"]).current_open_issues
    ∧ "a" ∈ (run_issue_ops [.create "a", .resolve "a", .create "a"]).resolved_issues := by
  decide

/-- C3 (amended): for every operation sequence in which no id is created
again after having been resolved — the only sequences the engine produces —
no id is ever simultaneously open and resolved, and a resolved id never
re-enters the open set. -/
theorem c3_lifetime_invariant_amended (ops : List IssueOp) (h : no_reopen ops) :
    ∀ l₁ l₂ : List IssueOp, ops = l₁ ++ l₂ →
      (∀ i, i ∈ (run_issue_ops l₁).current_open_issues →
        i ∉ (run_issue_ops l₁).resolved_issues)
      ∧ (∀ i, i ∈ (run_issue_ops l₁).resolved_issues →
          i ∉ (run_issue_ops (l₁ ++ l₂)).current_open_issues) := by
  intro l₁ l₂ hsplit
  subst hsplit
  rcases List.pairwise_append.mp h with ⟨hp₁, hp₂, hcross⟩
  have hdisj : ∀ i, i ∈ (run_issue_ops l₁).current_open_issues →
      i ∉ (run_issue_ops l₁).resolved_issues := by
    intro i
    exact ilm_disjoint_foldl l₁ {} hp₁ (by intro i h'; cases h') (by intro i h'; cases h') i
  refine ⟨hdisj, ?_⟩
  intro i hres
  have hsrc : (IssueOp.resolve i) ∈ l₁ := by
    rcases ilm_resolved_src l₁ {} hres with h' | h'
    · cases h'
    · exact h'
  have hnc : (IssueOp.create i) ∉ l₂ := by
    intro hm
    exact (hcross _ hsrc _ hm) rfl
  have hno : i ∉ (run_issue_ops l₁).current_open_issues := fun ho => hdisj i ho hres
  rw [run_issue_ops, List.foldl_append]
  exact ilm_open_no_create l₂ _ hnc hno

/-- Witness for the amended C3 at a concrete no-reopen sequence. -/
theorem c3_lifetime_invariant_amended_witness :
    "a" ∉ (run_issue_ops ([.create "a", .resolve "a"] ++ [.create "b"])).current_open_issues :=
  (c3_lifetime_invariant_amended [.create "a", .resolve "a", .create "b"]
    (by unfold no_reopen; decide)
    [.create "a", .resolve "a"] [.create "b"] rfl).2 "a" (by decide)

end Spojit
namespace Spojit

/-! ## C5 -/

/-- A successful jira-side search returns an index at or after the running
offset whose link owns the handle. -/
theorem get_link_id_go_some_jira (pu : ProjectUsers) (un : String) :
    ∀ (links : List LinkedDeveloper) (k idx : Nat),
      get_link_id_go pu un "jira" links k = .ok (some idx) →
      k ≤ idx ∧ ∃ ld j dev, links.get? (idx - k) = some ld ∧ ld.jira_idx = some j
        ∧ pu.jira_team.get? j = some dev ∧ un ∈ dev.user_names := by
  intro links
  induction links with
  | nil => intro k idx h; cases h
  | cons ld rest ih =>
    intro k idx h
    rw [get_link_id_go, if_pos rfl] at h
    cases hj : ld.jira_idx with
    | none =>
      simp only [hj] at h
      rcases ih (k + 1) idx h with ⟨hk, ld', j, dev, hget, hrest⟩
      refine ⟨by omega, ld', j, dev, ?_, hrest⟩
      have : idx - k = (idx - (k + 1)) + 1 := by omega
      rw [this]
      simpa using hget
    | some j =>
      simp only [hj] at h
      cases hdev : pu.jira_team.get? j with
      | none => simp only [hdev] at h; cases h
      | some dev =>
        simp only [hdev] at h
        by_cases hmem : un ∈ dev.user_names
        · rw [if_pos hmem] at h
          injection h with h
          injection h with h
          subst h
          exact ⟨le_refl _, ld, j, dev, by simp, hj, hdev, hmem⟩
        · rw [if_neg hmem] at h
          rcases ih (k + 1) idx h with ⟨hk, ld', j', dev', hget, hrest⟩
          refine ⟨by omega, ld', j', dev', ?_, hrest⟩
          have : idx - k = (idx - (k + 1)) + 1 := by omega
          rw [this]
          simpa using hget

/-- A jira-side search that completes without a hit visited every link and
found no member owning the handle. -/
theorem get_link_id_go_none_jira (pu : ProjectUsers) (un : String) :
    ∀ (links : List LinkedDeveloper) (k : Nat),
      get_link_id_go pu un "jira" links k = .ok none →
      ∀ rel ld j dev, links.get? rel = some ld → ld.jira_idx = some j →
        pu.jira_team.get? j = some dev → un ∉ dev.user_names := by
  intro links
  induction links with
  | nil => intro k _ rel ld j dev hget; cases hget
  | cons ld0 rest ih =>
    intro k h rel ld j dev hget hj hdev
    rw [get_link_id_go, if_pos rfl] at h
    cases rel with
    | zero =>
      simp only [List.get?] at hget
      injection hget with hget
      subst hget
      simp only [hj, hdev] at h
      by_cases hmem : un ∈ dev.user_names
      · rw [if_pos hmem] at h; cases h
      · exact hmem
    | succ rel' =>
      simp only [List.get?] at hget
      cases hj0 : ld0.jira_idx with
      | none =>
        simp only [hj0] at h
        exact ih (k + 1) h rel' ld j dev hget hj hdev
      | some j0 =>
        simp only [hj0] at h
        cases hdev0 : pu.jira_team.get? j0 with
        | none => simp only [hdev0] at h; cases h
        | some dev0 =>
          simp only [hdev0] at h
          by_cases hmem0 : un ∈ dev0.user_names
          · rw [if_pos hmem0] at h; cases h
          · rw [if_neg hmem0] at h
            exact ih (k + 1) h rel' ld j dev hget hj hdev

end Spojit
namespace Spojit

/-- A successful git-side search returns an index at or after the running
offset whose link owns the handle. -/
theorem get_link_id_go_some_git (pu : ProjectUsers) (un : String) :
    ∀ (links : List LinkedDeveloper) (k idx : Nat),
      get_link_id_go pu un "git" links k = .ok (some idx) →
      k ≤ idx ∧ ∃ ld gi dev, links.get? (idx - k) = some ld ∧ ld.git_idx = some gi
        ∧ pu.git_team.get? gi = some dev ∧ un ∈ dev.user_names := by
  intro links
  induction links with
  | nil => intro k idx h; cases h
  | cons ld rest ih =>
    intro k idx h
    rw [get_link_id_go, if_neg (by decide : ¬ ("git" : String) = "jira"), if_pos rfl] at h
    cases hj : ld.git_idx with
    | none =>
      simp only [hj] at h
      rcases ih (k + 1) idx h with ⟨hk, ld', gi, dev, hget, hrest⟩
      refine ⟨by omega, ld', gi, dev, ?_, hrest⟩
      have : idx - k = (idx - (k + 1)) + 1 := by omega
      rw [this]
      simpa using hget
    | some gi =>
      simp only [hj] at h
      cases hdev : pu.git_team.get? gi with
      | none => simp only [hdev] at h; cases h
      | some dev =>
        simp only [hdev] at h
        by_cases hmem : un ∈ dev.user_names
        · rw [if_pos hmem] at h
          injection h with h
          injection h with h
          subst h
          exact ⟨le_refl _, ld, gi, dev, by simp, hj, hdev, hmem⟩
        · rw [if_neg hmem] at h
          rcases ih (k + 1) idx h with ⟨hk, ld', gi', dev', hget, hrest⟩
          refine ⟨by omega, ld', gi', dev', ?_, hrest⟩
          have : idx - k = (idx - (k + 1)) + 1 := by omega
          rw [this]
          simpa using hget

/-- A git-side search that completes without a hit found no member owning
the handle. -/
theorem get_link_id_go_none_git (pu : ProjectUsers) (un : String) :
    ∀ (links : List LinkedDeveloper) (k : Nat),
      get_link_id_go pu un "git" links k = .ok none →
      ∀ rel ld gi dev, links.get? rel = some ld → ld.git_idx = some gi →
        pu.git_team.get? gi = some dev → un ∉ dev.user_names := by
  intro links
  induction links with
  | nil => intro k _ rel ld gi dev hget; cases hget
  | cons ld0 rest ih =>
    intro k h rel ld gi dev hget hj hdev
    rw [get_link_id_go, if_neg (by decide : ¬ ("git" : String) = "jira"), if_pos rfl] at h
    cases rel with
    | zero =>
      simp only [List.get?] at hget
      injection hget with hget
      subst hget
      simp only [hj, hdev] at h
      by_cases hmem : un ∈ dev.user_names
      · rw [if_pos hmem] at h; cases h
      · exact hmem
    | succ rel' =>
      simp only [List.get?] at hget
      cases hj0 : ld0.git_idx with
      | none =>
        simp only [hj0] at h
        exact ih (k + 1) h rel' ld gi dev hget hj hdev
      | some gi0 =>
        simp only [hj0] at h
        cases hdev0 : pu.git_team.get? gi0 with
        | none => simp only [hdev0] at h; cases h
        | some dev0 =>
          simp only [hdev0] at h
          by_cases hmem0 : un ∈ dev0.user_names
          · rw [if_pos hmem0] at h; cases h
          · rw [if_neg hmem0] at h
            exact ih (k + 1) h rel' ld gi dev hget hj hdev

end Spojit
namespace Spojit

/-- C5 counterexample: with one link in the roster, an unknown jira handle
is substituted with id 1, the roster size itself, not `1 + 1` as the claim
("one greater than the roster size") requires. -/
theorem c5_identity_lookup_counterexample :
    lookup_jira_user_id puEx "nobody" = .ok 1
    ∧ puEx.team_links.length = 1
    ∧ decide (lookup_jira_user_id puEx "nobody" = .ok (puEx.team_links.length + 1)) = false := by
  decide

/-- C5 (amended): a lookup that finds a link owning the handle returns that
link's index; an unsuccessful lookup returns `None`, and the engine
substitutes the sentinel — the roster size for the jira side
(`unknown_jira_user_id`), the roster size plus one for the git side
(`unknown_git_user_id`) — so absent identities stay valid categorical
values. -/
theorem c5_identity_lookup_amended (pu : ProjectUsers) (user_name : String) :
    (∀ idx, get_link_id pu user_name "jira" = .ok (some idx) →
      owns_jira_handle pu user_name idx ∧ lookup_jira_user_id pu user_name = .ok idx)
    ∧ (get_link_id pu user_name "jira" = .ok none →
        (∀ idx, ¬ owns_jira_handle pu user_name idx)
        ∧ lookup_jira_user_id pu user_name = .ok pu.team_links.length)
    ∧ (∀ idx, get_link_id pu user_name "git" = .ok (some idx) →
        owns_git_handle pu user_name idx ∧ lookup_git_user_id pu user_name = .ok idx)
    ∧ (get_link_id pu user_name "git" = .ok none →
        (∀ idx, ¬ owns_git_handle pu user_name idx)
        ∧ lookup_git_user_id pu user_name = .ok (pu.team_links.length + 1)) := by
  refine ⟨fun idx h => ⟨?_, ?_⟩, fun h => ⟨fun idx hown => ?_, ?_⟩,
    fun idx h => ⟨?_, ?_⟩, fun h => ⟨fun idx hown => ?_, ?_⟩⟩
  · rcases get_link_id_go_some_jira pu user_name pu.team_links 0 idx h with ⟨-, ld, j, dev, hget, hj, hdev, hmem⟩
    rw [Nat.sub_zero] at hget
    exact ⟨ld, j, dev, hget, hj, hdev, hmem⟩
  · unfold lookup_jira_user_id
    rw [get_link_id] at h
    rw [get_link_id, h]
    rfl
  · rcases hown with ⟨ld, j, dev, hget, hj, hdev, hmem⟩
    exact get_link_id_go_none_jira pu user_name pu.team_links 0 h idx ld j dev hget hj hdev hmem
  · unfold lookup_jira_user_id
    rw [get_link_id] at h
    rw [get_link_id, h]
    rfl
  · rcases get_link_id_go_some_git pu user_name pu.team_links 0 idx h with ⟨-, ld, gi, dev, hget, hj, hdev, hmem⟩
    rw [Nat.sub_zero] at hget
    exact ⟨ld, gi, dev, hget, hj, hdev, hmem⟩
  · unfold lookup_git_user_id
    rw [get_link_id] at h
    rw [get_link_id, h]
    rfl
  · rcases hown with ⟨ld, gi, dev, hget, hj, hdev, hmem⟩
    exact get_link_id_go_none_git pu user_name pu.team_links 0 h idx ld gi dev hget hj hdev hmem
  · unfold lookup_git_user_id
    rw [get_link_id] at h
    rw [get_link_id, h]
    rfl

/-- Witness for the amended C5: a found handle returns its link index, an
absent handle is substituted with the jira sentinel (the roster size). -/
theorem c5_identity_lookup_amended_witness :
    owns_jira_handle puEx "alice" 0
    ∧ lookup_jira_user_id puEx "nobody" = .ok puEx.team_links.length :=
  ⟨((c5_identity_lookup_amended puEx "alice").1 0 (by decide)).1,
    ((c5_identity_lookup_amended puEx "nobody").2.1 (by decide)).2⟩

end Spojit
namespace Spojit

/-! ## C7 -/

/-- The neighbor-commit pass only writes the two neighbor descriptors; all
other sample fields pass through. -/
theorem check_prev_preserves {tz : Int} {g : GenState} {commit : ECommit} {issue : EIssue}
    {s s' : TrainingSample} (h : check_previous_and_next_commits tz g commit issue s = .ok s') :
    s'.f01_issue_id = s.f01_issue_id
    ∧ s'.f12_num_open_issues_at_commit_time = s.f12_num_open_issues_at_commit_time
    ∧ s'.f13_num_open_issues_from_committer_at_commit_time
        = s.f13_num_open_issues_from_committer_at_commit_time := by
  simp only [check_previous_and_next_commits] at h
  split at h
  · injection h with h
    subst h
    exact ⟨rfl, rfl, rfl⟩
  · split at h
    · injection h with h
      subst h
      exact ⟨rfl, rfl, rfl⟩
    · split at h
      · rcases except_bind_ok h with ⟨t1, -, h⟩
        rcases except_bind_ok h with ⟨t2, -, h⟩
        rcases except_bind_ok h with ⟨y, hy, h⟩
        injection hy with hy
        subst hy
        split at h
        · rcases except_bind_ok h with ⟨u1, -, h⟩
          rcases except_bind_ok h with ⟨u2, -, h⟩
          injection h with h
          subst h
          exact ⟨rfl, rfl, rfl⟩
        · injection h with h
          subst h
          exact ⟨rfl, rfl, rfl⟩
      · rcases except_bind_ok h with ⟨y, hy, h⟩
        injection hy with hy
        subst hy
        split at h
        · rcases except_bind_ok h with ⟨u1, -, h⟩
          rcases except_bind_ok h with ⟨u2, -, h⟩
          injection h with h
          subst h
          exact ⟨rfl, rfl, rfl⟩
        · injection h with h
          subst h
          exact ⟨rfl, rfl, rfl⟩

/-- The identifying and counting fields of a freshly created sample. -/
theorem create_training_sample_fields {tz : Int} {g : GenState} {commit : ECommit}
    {issue : EIssue} {s : TrainingSample}
    (h : create_training_sample tz g commit issue = .ok s) :
    s.f01_issue_id = some issue.id
    ∧ s.f12_num_open_issues_at_commit_time = some g.issue_manager.current_open_issues.length
    ∧ s.f13_num_open_issues_from_committer_at_commit_time
        = some (get_number_of_currently_open_issues_assigned_to_user g commit.user_id) := by
  simp only [create_training_sample] at h
  rcases except_bind_ok h with ⟨t1, -, h⟩
  rcases except_bind_ok h with ⟨t2, -, h⟩
  split at h
  · split at h
    · rcases except_bind_ok h with ⟨s2, hs2, h⟩
      injection hs2 with hs2
      subst hs2
      rcases check_prev_preserves h with ⟨h01, h12, h13⟩
      rw [h01, h12, h13]
      exact ⟨rfl, rfl, rfl⟩
    · rcases except_bind_ok h with ⟨t3, -, h⟩
      rcases except_bind_ok h with ⟨s2, hs2, h⟩
      injection hs2 with hs2
      subst hs2
      rcases check_prev_preserves h with ⟨h01, h12, h13⟩
      rw [h01, h12, h13]
      exact ⟨rfl, rfl, rfl⟩
  · rcases except_bind_ok h with ⟨s2, hs2, h⟩
    injection hs2 with hs2
    subst hs2
    rcases check_prev_preserves h with ⟨h01, h12, h13⟩
    rw [h01, h12, h13]
    exact ⟨rfl, rfl, rfl⟩

/-- C7: in every sample the engine creates, the per-author open-issue count
is present and bounded by the overall open-issue count, so the internal
sanity assertion of `create_training_sample` never fails. -/
theorem c7_open_issue_count_sanity (tz : Int) (g : GenState) (commit : ECommit)
    (issue : EIssue) (s : TrainingSample)
    (h : create_training_sample tz g commit issue = .ok s) :
    s.f13_num_open_issues_from_committer_at_commit_time.isSome
    ∧ s.f12_num_open_issues_at_commit_time.isSome
    ∧ s.f13_num_open_issues_from_committer_at_commit_time.getD 0
        ≤ s.f12_num_open_issues_at_commit_time.getD 0 := by
  rcases create_training_sample_fields h with ⟨-, h12, h13⟩
  rw [h12, h13]
  refine ⟨rfl, rfl, ?_⟩
  simpa [get_number_of_currently_open_issues_assigned_to_user] using
    List.countP_le_length _

/-- Witness for C7 at a concrete state and sample. -/
theorem c7_open_issue_count_sanity_witness :
    sampleW.f13_num_open_issues_from_committer_at_commit_time.isSome
    ∧ sampleW.f12_num_open_issues_at_commit_time.isSome
    ∧ sampleW.f13_num_open_issues_from_committer_at_commit_time.getD 0
        ≤ sampleW.f12_num_open_issues_at_commit_time.getD 0 :=
  c7_open_issue_count_sanity 0 gXT cXT iB sampleW rfl

end Spojit
namespace Spojit

/-! ## C1 / C2 loop characterizations -/

/-- The linked-issue loop emits exactly one sample per in-scope linked id, in
order, flagging each with the current open-set membership. The hypothesis
`hkeys` is the engine invariant that the issue lookup keys every issue by its
own id. -/
theorem samples_for_linked_spec {tz : Int} {g : GenState} {commit : ECommit}
    (hkeys : ∀ k issue, dlookup g.issue_id_to_issue k = some issue → issue.id = k) :
    ∀ (ids : List String) (samples : List TrainingSample),
      samples_for_linked tz g commit ids = .ok samples →
      samples.map (fun s => (s.f01_issue_id, s.f06_is_commit_within_issue_life_time))
        = (ids.filter (fun i => inScope g i)).map
            (fun i => (some i, some (g.issue_manager.current_open_issues.contains i))) := by
  intro ids
  induction ids with
  | nil =>
    intro samples h
    injection h with h
    subst h
    rfl
  | cons i rest ih =>
    intro samples h
    simp only [samples_for_linked] at h
    cases hl : dlookup g.issue_id_to_issue i with
    | none =>
      simp only [hl] at h
      have hsc : inScope g i = false := by simp [inScope, hl]
      rw [List.filter_cons, hsc]
      simpa using ih samples h
    | some issue =>
      simp only [hl] at h
      have hid : issue.id = i := hkeys i issue hl
      by_cases hm : mappedTypeAllowed g.allowed_issue_types issue.mapped_type = true
      · rw [if_pos hm] at h
        rcases except_bind_ok h with ⟨sample, hsample, h⟩
        rcases except_bind_ok h with ⟨tail, htail, h⟩
        injection h with h
        subst h
        have h01 := (create_training_sample_fields hsample).1
        have hsc : inScope g i = true := by simp [inScope, hl, hm]
        rw [List.filter_cons, hsc]
        simp only [List.map_cons, ih tail htail]
        refine congrArg (· :: _) ?_
        simp [h01, hid]
      · rw [if_neg hm] at h
        have hsc : inScope g i = false := by
          simp only [inScope, hl]
          exact Bool.not_eq_true _ ▸ (by simpa using hm)
        rw [List.filter_cons, hsc]
        simpa using ih samples h

/-- The open-issue loop emits one sample per open id with the lifetime flag
set, provided each open id is present in the lookup (the engine invariant). -/
theorem samples_for_open_spec {tz : Int} {g : GenState} {commit : ECommit}
    (hkeys : ∀ k issue, dlookup g.issue_id_to_issue k = some issue → issue.id = k) :
    ∀ (ids : List String) (samples : List TrainingSample),
      (∀ i ∈ ids, (dlookup g.issue_id_to_issue i).isSome) →
      samples_for_open tz g commit ids = .ok samples →
      samples.map (fun s => (s.f01_issue_id, s.f06_is_commit_within_issue_life_time))
        = ids.map (fun i => (some i, some true)) := by
  intro ids
  induction ids with
  | nil =>
    intro samples _ h
    injection h with h
    subst h
    rfl
  | cons i rest ih =>
    intro samples hin h
    simp only [samples_for_open] at h
    cases hl : dlookup g.issue_id_to_issue i with
    | none =>
      have := hin i (by simp)
      rw [hl] at this
      cases this
    | some issue =>
      simp only [hl] at h
      rcases except_bind_ok h with ⟨sample, hsample, h⟩
      rcases except_bind_ok h with ⟨tail, htail, h⟩
      injection h with h
      subst h
      have h01 := (create_training_sample_fields hsample).1
      have hid : issue.id = i := hkeys i issue hl
      simp only [List.map_cons, ih tail (fun j hj => hin j (List.mem_cons_of_mem _ hj)) htail]
      refine congrArg (· :: _) ?_
      simp [h01, hid]

/-- The resolved-issue loop emits one sample per resolved id inside the
tolerance window, in order, with the lifetime flag cleared. -/
theorem samples_for_resolved_spec {tz : Int} {g : GenState} {commit : ECommit} {cts : Int}
    (hkeys : ∀ k issue, dlookup g.issue_id_to_issue k = some issue → issue.id = k) :
    ∀ (ids : List String) (samples : List TrainingSample),
      samples_for_resolved tz g commit cts ids = .ok samples →
      samples.map (fun s => (s.f01_issue_id, s.f06_is_commit_within_issue_life_time))
        = (ids.filter (fun i => within_window tz g cts i)).map
            (fun i => (some i, some false)) := by
  intro ids
  induction ids with
  | nil =>
    intro samples h
    injection h with h
    subst h
    rfl
  | cons i rest ih =>
    intro samples h
    simp only [samples_for_resolved] at h
    cases hl : dlookup g.issue_id_to_issue i with
    | none =>
      simp only [hl] at h
      have hw : within_window tz g cts i = false := by simp [within_window, hl]
      rw [List.filter_cons, hw]
      simpa using ih samples h
    | some issue =>
      simp only [hl] at h
      rcases except_bind_ok h with ⟨rts, hrts, h⟩
      have hw : within_window tz g cts i =
          decide (|cts - rts| < MAX_DIFFERENCE_BETWEEN_RESOLVED_AND_COMMITTED_SEC) := by
        simp [within_window, hl, hrts]
      by_cases hlt : |cts - rts| < MAX_DIFFERENCE_BETWEEN_RESOLVED_AND_COMMITTED_SEC
      · rw [if_pos hlt] at h
        rcases except_bind_ok h with ⟨sample, hsample, h⟩
        rcases except_bind_ok h with ⟨tail, htail, h⟩
        injection h with h
        subst h
        have h01 := (create_training_sample_fields hsample).1
        have hid : issue.id = i := hkeys i issue hl
        rw [List.filter_cons, hw]
        simp only [decide_eq_true hlt, if_pos rfl]
        simp only [List.map_cons, ih tail htail]
        refine congrArg (· :: _) ?_
        simp [h01, hid]
      · rw [if_neg hlt] at h
        rw [List.filter_cons, hw]
        simp only [decide_eq_false hlt]
        simpa using ih samples h

end Spojit
namespace Spojit

/-- A successful dictionary lookup returns an entry of the list. -/
theorem dlookup_mem {α : Type} : ∀ {d : List (String × α)} {k : String} {v : α},
    dlookup d k = some v → (k, v) ∈ d := by
  intro d
  induction d with
  | nil => intro k v h; cases h
  | cons e rest ih =>
    intro k v h
    obtain ⟨k', v'⟩ := e
    simp only [dlookup] at h
    by_cases hk : k' = k
    · rw [if_pos hk] at h
      injection h with h
      subst h hk
      simp
    · rw [if_neg hk] at h
      exact List.mem_cons_of_mem _ (ih h)

/-- Counting occurrences in a duplicate-free list of strings. -/
theorem countP_eq_of_nodup : ∀ (l : List String), l.Nodup → ∀ i : String,
    l.countP (fun j => decide (j = i)) = if i ∈ l then 1 else 0 := by
  intro l
  induction l with
  | nil => intro _ i; rfl
  | cons a rest ih =>
    intro hnd i
    rcases List.nodup_cons.mp hnd with ⟨hna, hnd'⟩
    rw [List.countP_cons, ih hnd' i]
    by_cases hai : a = i
    · subst hai
      simp [hna]
    · have hdec : (decide (a = i)) = false := by simp [hai]
      rw [hdec]
      simp only [List.mem_cons, if_false]
      by_cases hil : i ∈ rest
      · simp [hil]
      · rw [if_neg hil]
        have hia : ¬ (i = a ∨ i ∈ rest) := by
          rintro (h | h)
          · exact hai h.symm
          · exact hil h
        simp [hia]

/-! ## C1 -/

/-- C1 counterexample: in state `gX` the to-predict commit `X` has a known
link to the in-scope issue `A`, yet the engine emits a record for the open
issue `B` and none for `A` — the linked-issue rule only governs training
commits. -/
theorem c1_linked_commit_records_counterexample :
    dlookup gX.commit_hash_to_issue_ids "X" = some ["A"]
    ∧ inScope gX "A" = true
    ∧ (dlookup gX.commit_hash_to_change_set "X").map (fun c => c.to_predict) = some true
    ∧ (create_samples_for_change_set 0 gX "X").map
        (fun l => l.map (fun s => s.f01_issue_id)) = .ok [some "B"] := by
  decide

/-- C1 (amended): for every commit event whose commit is part of the training
history (not marked to-predict) and has at least one known link, the engine
emits exactly one record per in-scope linked issue — flagged as within the
issue lifetime iff the issue id is currently open — and zero records for any
other issue. -/
theorem c1_linked_commit_records_amended (tz : Int) (g : GenState) (commit_hash : String)
    (commit : ECommit) (ids : List String) (samples : List TrainingSample)
    (hkeys : ∀ e ∈ g.issue_id_to_issue, (Prod.snd e).id = Prod.fst e)
    (hc : dlookup g.commit_hash_to_change_set commit_hash = some commit)
    (hp : commit.to_predict = false)
    (hids : dlookup g.commit_hash_to_issue_ids commit_hash = some ids)
    (hne : ids ≠ [])
    (hnd : ids.Nodup)
    (h : create_samples_for_change_set tz g commit_hash = .ok samples) :
    samples.map (fun s => (s.f01_issue_id, s.f06_is_commit_within_issue_life_time))
      = (ids.filter (fun i => inScope g i)).map
          (fun i => (some i, some (g.issue_manager.current_open_issues.contains i)))
    ∧ ∀ i : String, samples.countP (fun s => decide (s.f01_issue_id = some i))
        = if i ∈ ids ∧ inScope g i = true then 1 else 0 := by
  have hk : ∀ k issue, dlookup g.issue_id_to_issue k = some issue → issue.id = k :=
    fun k issue hl => hkeys (k, issue) (dlookup_mem hl)
  have hemp : ids.isEmpty = false := by
    cases ids with
    | nil => exact absurd rfl hne
    | cons a l => rfl
  simp only [create_samples_for_change_set, hc, hids, hp, Option.getD, hemp,
    Bool.not_false, Bool.not_true, Bool.and_false, Bool.and_true, Bool.true_and,
    if_true] at h
  have hmap := samples_for_linked_spec hk ids samples h
  refine ⟨hmap, fun i => ?_⟩
  have h01 : samples.map (fun s => s.f01_issue_id)
      = ((ids.filter (fun i => inScope g i)).map some) := by
    have := congrArg (List.map Prod.fst) hmap
    simpa [List.map_map, Function.comp] using this
  have step1 : samples.countP (fun s => decide (s.f01_issue_id = some i))
      = (samples.map (fun s => s.f01_issue_id)).countP (fun x => decide (x = some i)) := by
    rw [List.countP_map]
    rfl
  rw [step1, h01, List.countP_map]
  have step2 : ((fun x => decide (x = some i)) ∘ some) = (fun j => decide (j = i)) := by
    funext j
    simp
  rw [step2, countP_eq_of_nodup _ (hnd.filter _) i]
  by_cases hmem : i ∈ ids ∧ inScope g i = true
  · rw [if_pos (List.mem_filter.mpr ⟨hmem.1, hmem.2⟩), if_pos hmem]
  · rw [if_neg hmem, if_neg ?_]
    intro hmf
    rcases List.mem_filter.mp hmf with ⟨h1, h2⟩
    exact hmem ⟨h1, h2⟩

/-- Witness for the amended C1: in state `gXT`, training commit `X` linked to
issue `A` produces exactly the record for `A`, outside `A`'s lifetime. -/
theorem c1_linked_commit_records_amended_witness :
    samplesXT.map (fun s => (s.f01_issue_id, s.f06_is_commit_within_issue_life_time))
      = ((["A"] : List String).filter (fun i => inScope gXT i)).map
          (fun i => (some i, some (gXT.issue_manager.current_open_issues.contains i))) :=
  (c1_linked_commit_records_amended 0 gXT "X" cXT ["A"] samplesXT (by decide) (by decide)
    (by decide) (by decide) (by decide) (by decide) rfl).1

/-! ## C2 -/

/-- C2: for every commit event whose commit has zero known links, the engine
emits one record per currently-open issue (flagged within-lifetime) followed
by one record per resolved issue whose resolution timestamp differs from the
commit timestamp by strictly less than the 129600-second tolerance (flagged
not-within-lifetime), and no record for any other issue. -/
theorem c2_unlinked_commit_records (tz : Int) (g : GenState) (commit_hash : String)
    (commit : ECommit) (samples : List TrainingSample) (cts : Int)
    (hkeys : ∀ e ∈ g.issue_id_to_issue, (Prod.snd e).id = Prod.fst e)
    (hopen : ∀ i ∈ g.issue_manager.current_open_issues, (dlookup g.issue_id_to_issue i).isSome)
    (hc : dlookup g.commit_hash_to_change_set commit_hash = some commit)
    (hids : dlookup g.commit_hash_to_issue_ids commit_hash = none)
    (hcts : date_time_to_timestamp tz commit.committed_date = .ok cts)
    (h : create_samples_for_change_set tz g commit_hash = .ok samples) :
    samples.map (fun s => (s.f01_issue_id, s.f06_is_commit_within_issue_life_time))
      = g.issue_manager.current_open_issues.map (fun i => (some i, some true))
        ++ (g.issue_manager.resolved_issues.filter (fun i => within_window tz g cts i)).map
            (fun i => (some i, some false)) := by
  have hk : ∀ k issue, dlookup g.issue_id_to_issue k = some issue → issue.id = k :=
    fun k issue hl => hkeys (k, issue) (dlookup_mem hl)
  simp only [create_samples_for_change_set, hc, hids, Option.getD, List.isEmpty_nil,
    Bool.not_true, Bool.and_false, if_false, Bool.false_eq_true] at h
  rcases except_bind_ok h with ⟨open_samples, hos, h⟩
  rcases except_bind_ok h with ⟨cts', hcts', h⟩
  rw [hcts] at hcts'
  injection hcts' with hcts'
  subst hcts'
  rcases except_bind_ok h with ⟨resolved_samples, hrs, h⟩
  injection h with h
  subst h
  rw [List.map_append]
  rw [samples_for_open_spec hk _ open_samples hopen hos,
    samples_for_resolved_spec hk _ resolved_samples hrs]

/-- Witness for C2: in state `gY` the unlinked commit `Y` yields one record
for the open issue `B` and one for issue `A`, resolved one day (within the
1.5-day window) before the commit. -/
theorem c2_unlinked_commit_records_witness :
    samplesY.map (fun s => (s.f01_issue_id, s.f06_is_commit_within_issue_life_time))
      = gY.issue_manager.current_open_issues.map (fun i => (some i, some true))
        ++ (gY.issue_manager.resolved_issues.filter (fun i => within_window 0 gY 1485907200 i)).map
            (fun i => (some i, some false)) :=
  c2_unlinked_commit_records 0 gY "Y" cY samplesY 1485907200 (by decide) (by decide)
    (by decide) (by decide) (by decide) rfl

end Spojit
namespace Spojit

/-! ## C6 -/

/-- Inserting into a list keeps the sublist of any fixed timestamp intact,
with the new event in front of its timestamp class exactly when it carries
that timestamp. -/
theorem filter_ts_orderedInsert (t : Int) (x : Event) :
    ∀ l : List Event, (List.orderedInsert event_le x l).filter (fun e => e.ts == t)
      = if x.ts == t then x :: l.filter (fun e => e.ts == t)
        else l.filter (fun e => e.ts == t) := by
  intro l
  induction l with
  | nil =>
    rw [List.orderedInsert_nil, List.filter_cons]
  | cons b l ih =>
    by_cases hr : event_le x b
    · rw [List.orderedInsert_of_le _ _ hr, List.filter_cons]
    · have hlt : b.ts < x.ts := lt_of_not_le hr
      have horder : List.orderedInsert event_le x (b :: l)
          = b :: List.orderedInsert event_le x l := by
        rw [List.orderedInsert, if_neg hr]
      rw [horder, List.filter_cons, ih, List.filter_cons]
      cases hpx : (x.ts == t) <;> cases hpb : (b.ts == t)
      · simp [hpx, hpb]
      · simp [hpx, hpb]
      · simp [hpx, hpb]
      · exfalso
        have hx : x.ts = t := by simpa using hpx
        have hb : b.ts = t := by simpa using hpb
        omega

/-- A stable sort by timestamp preserves each timestamp class verbatim. -/
theorem filter_ts_insertionSort (t : Int) :
    ∀ l : List Event, (List.insertionSort event_le l).filter (fun e => e.ts == t)
      = l.filter (fun e => e.ts == t) := by
  intro l
  induction l with
  | nil => rfl
  | cons x l ih =>
    rw [List.insertionSort, filter_ts_orderedInsert t x _, ih, List.filter_cons]

/-- C6: the generated event stream — one creation event per issue at its
creation time plus the create offset, one resolution event per issue at its
resolution time (the far-future placeholder when unresolved) plus the resolve
offset, one event per commit at its committed time plus the commit offset,
all shifted by the shared epoch constant — is sorted ascending by timestamp,
is a permutation of the generated events, and within every timestamp class
keeps generation order (issue events before commit events, creation before
resolution of the same issue). -/
theorem c6_event_stream_sorted_stable (tz : Int) (cfg : EscConfig) (ds : DataSource)
    (stream jira git : List Event)
    (hj : generate_jira_events tz cfg ds.issues = .ok jira)
    (hg : generate_git_events tz cfg ds.change_sets = .ok git)
    (h : esc_generate tz cfg ds = .ok stream) :
    stream.Pairwise event_le
    ∧ stream.Perm (jira ++ git)
    ∧ ∀ t : Int, stream.filter (fun e => e.ts == t) = (jira ++ git).filter (fun e => e.ts == t) := by
  simp only [esc_generate] at h
  rcases except_bind_ok h with ⟨jira', hj', h⟩
  rw [hj] at hj'
  injection hj' with hj'
  subst hj'
  rcases except_bind_ok h with ⟨git', hg', h⟩
  rw [hg] at hg'
  injection hg' with hg'
  subst hg'
  injection h with h
  subst h
  exact ⟨List.sorted_insertionSort event_le _, List.perm_insertionSort event_le _,
    fun t => filter_ts_insertionSort t _⟩

/-- Witness for C6 on the concrete data source `dsTie`. -/
theorem c6_event_stream_sorted_stable_witness :
    streamW.Pairwise event_le ∧ streamW.Perm (jiraW ++ gitW) :=
  ⟨(c6_event_stream_sorted_stable 0 {} dsTie streamW jiraW gitW rfl rfl rfl).1,
    (c6_event_stream_sorted_stable 0 {} dsTie streamW jiraW gitW rfl rfl rfl).2.1⟩

/-! ## C4 -/

/-- C4: the pipeline's output is not a function of the input data alone — it
also depends on CPython's hash-randomized set iteration order, observed at
`list(valid_ids)` in `_filter_data_source`. On `dsTie` (two commits linked to
the same issue sharing a committed date) two legitimate enumerations of the
same set yield different previous-linked-commit committer ids, so two runs
need not be byte-identical, although the spec (and the sorting comment in
`io.build_project_users`) requires reproducibility. -/
theorem c4_determinism_failing :
    prevCommitterIds (pipeline 0 {} id noneHandlers dsTie [] ["bug"])
      = .ok [none, none, some 2]
    ∧ prevCommitterIds (pipeline 0 {} List.reverse noneHandlers dsTie [] ["bug"])
      = .ok [none, none, some 1]
    ∧ decide (prevCommitterIds (pipeline 0 {} id noneHandlers dsTie [] ["bug"])
        = prevCommitterIds (pipeline 0 {} List.reverse noneHandlers dsTie [] ["bug"])) = false :=
  ⟨rfl, rfl, by rfl⟩

end Spojit
